import Mathlib

/-
  Verification development for the cloud-assistant (Cloud Codex) backend.

  The TypeScript sources are shallowly embedded as pure Lean functions:
  JavaScript `undefined`-able values become `Option`, the nullish-coalescing
  operator `??` becomes `jsOr`, JS truthiness of strings ("" is falsy) becomes
  `truthyS`, and the in-place mutation of the mapper / gateway objects becomes
  explicit state passing over association lists that preserve insertion order
  (like JS `Map`).
-/

namespace CloudCodex

/-- JS `a ?? b` on possibly-undefined values: the left value wins whenever it
is present, even when it is the empty string. -/
def jsOr (a b : Option α) : Option α :=
  match a with
  | some x => some x
  | none => b

/-- JS truthiness of a possibly-undefined string: `undefined` and `""` are
falsy, every other string is truthy. -/
def truthyS (o : Option String) : Bool :=
  match o with
  | none => false
  | some s => s != ""

/-- `pat` occurs as a contiguous sublist of `l`. -/
def isInfixB (pat : List Char) : List Char → Bool
  | [] => pat.isEmpty
  | c :: rest => pat.isPrefixOf (c :: rest) || isInfixB pat rest

/-- JS `haystack.includes(needle)` (substring containment). -/
def jsIncludes (s pat : String) : Bool :=
  isInfixB pat.toList s.toList

/-- JS `toLowerCase()` (character-wise lowering over the underlying
character list; the inputs classified by the code are ASCII). -/
def jsToLower (s : String) : String :=
  String.mk (s.data.map Char.toLower)

/-- First token of `command.trim().split(/\s+/)[0]`: the leading maximal run
of non-whitespace characters after stripping leading whitespace (empty when
the trimmed string is empty, as in JS). -/
def jsFirstToken (s : String) : String :=
  String.mk ((s.data.dropWhile Char.isWhitespace).takeWhile (fun c => !c.isWhitespace))

/-! ## Approval policy engine (src/utils/approval-policy.ts) -/

/-- the union type `'accept' | 'decline' | 'manual'` returned by
`ApprovalPolicyEngine.evaluate`. -/
inductive Decision
  | accept
  | decline
  | manual
deriving DecidableEq, Repr

/-- `ApprovalConfig.defaultAction : 'accept' | 'decline'`. -/
inductive DefaultAction
  | accept
  | decline
deriving DecidableEq, Repr

/-- `ApprovalConfig.autoApprove` (both member lists optional). -/
structure AutoApprove where
  commands : Option (List String) := none
  paths : Option (List String) := none
deriving DecidableEq, Repr

/-- `ApprovalConfig`. -/
structure ApprovalConfig where
  timeoutMs : Nat
  defaultAction : DefaultAction
  autoApprove : Option AutoApprove := none
deriving DecidableEq, Repr

/-- a single entry of `FileChangeApprovalRequest.changes`. -/
structure Change where
  path : String
  kind : String
  diff : Option String := none
deriving DecidableEq, Repr

/-- `CommandApprovalRequest` (the `method` discriminant is carried by the
surrounding sum type `ApprovalRequestU`). -/
structure CommandApprovalRequest where
  itemId : String
  threadId : String
  turnId : String
  command : String
  cwd : String
  reason : Option String := none
  risk : Option String := none
deriving DecidableEq, Repr

/-- `FileChangeApprovalRequest`. -/
structure FileChangeApprovalRequest where
  itemId : String
  threadId : String
  turnId : String
  changes : List Change
  reason : Option String := none
deriving DecidableEq, Repr

/-- the parameter union `CommandApprovalRequest | FileChangeApprovalRequest` of
`ApprovalPolicyEngine.evaluate`, discriminated by `request.method`. -/
inductive ApprovalRequestU
  | cmd (r : CommandApprovalRequest)
  | file (r : FileChangeApprovalRequest)
deriving DecidableEq, Repr

/-- `ApprovalPolicyEngine.readOnlyCommands` (the verbatim built-in set). -/
def readOnlyCommands : List String :=
  ["ls", "cat", "grep", "find", "head", "tail", "less", "more",
   "pwd", "echo", "date", "whoami", "which", "git log", "git status",
   "git diff", "git show", "npm list", "yarn list"]

/-- `ApprovalPolicyEngine.isReadOnlyCommand`: reject on any `>` redirection,
then look up only the first whitespace-delimited token in the set. -/
def isReadOnlyCommand (command : String) : Bool :=
  if jsIncludes command ">" || jsIncludes command ">>" then false
  else readOnlyCommands.contains (jsFirstToken command)

/-- scan `path` for the first position where `seg` is a prefix and return the
remainder after it (helper of the glob matcher). -/
def findDrop (seg : List Char) : List Char → Option (List Char)
  | [] => if seg.isEmpty then some [] else none
  | c :: rest =>
      if seg.isPrefixOf (c :: rest) then some ((c :: rest).drop seg.length)
      else findDrop seg rest

/-- match the star-free segments of a glob pattern (everything after the first
segment) against the remaining path: middle segments may appear anywhere in
order, the final segment must end the path. -/
def globTail : List (List Char) → List Char → Bool
  | [], p => p.isEmpty
  | [seg], p => seg.isSuffixOf p
  | seg :: rest, p =>
      match findDrop seg p with
      | none => false
      | some p' => globTail rest p'

/-- `ApprovalPolicyEngine.matchPath`: the source builds the anchored regex
`'^' + pattern.replace(/\*/g, '.*') + '$'`; for patterns whose only regex
metacharacter is `*` (the configured globs such as `/tmp/*`) this is exactly
anchored glob matching, which is what we embed. -/
def matchPath (path pattern : String) : Bool :=
  match (pattern.splitOn "*").map String.toList with
  | [] => false
  | [s] => path.toList == s
  | s :: rest => s.isPrefixOf path.toList && globTail rest (path.toList.drop s.length)

/-- JS `xs?.some(p)` over a possibly-undefined list (undefined is falsy). -/
def optAny (o : Option (List α)) (p : α → Bool) : Bool :=
  match o with
  | none => false
  | some l => l.any p

/-- `ApprovalPolicyEngine.evaluate`. -/
def evaluate (config : ApprovalConfig) (request : ApprovalRequestU) : Decision :=
  match request with
  | .cmd r =>
      if isReadOnlyCommand r.command then .accept
      else if optAny (config.autoApprove.bind (fun a => a.commands))
          (fun c => r.command.startsWith c) then .accept
      else if optAny (config.autoApprove.bind (fun a => a.paths))
          (fun pat => matchPath r.cwd pat) then .accept
      else .manual
  | .file _ => .manual

/-! ## Error classifier (src/core/error-utils.ts) -/

/-- `summarizeError`. -/
def summarizeError (details : String) : String :=
  let normalized := jsToLower details
  if jsIncludes normalized "401" || jsIncludes normalized "invalid_api_key" then
    "鉴权失败：API Key 无效"
  else if jsIncludes normalized "timeout" then
    "请求超时"
  else
    "Codex 进程错误"

/-! ## IR data model (src/types/ir.ts and src/core/ir-mapper.ts)

The mapper keeps three JS `Map`/array structures: the raw event log, the
per-thread `RunView`s and a step table keyed by `threadId + ":" + itemId`.
`run.steps` holds the very objects stored in the step table (aliasing), so we
embed the step table as the single owner (`MapperState.steps`) and let each
run record the ordered list of step keys; a returned `RunView` is the
materialized snapshot that dereferences those keys. -/

/-- `StepKind` (closed set from src/types/ir.ts, listed in the spec). -/
inductive StepKind
  | userMessage
  | assistantMessage
  | reasoning
  | commandExecution
  | fileChange
  | mcpToolCall
  | collabToolCall
  | webSearch
  | imageView
  | reviewMode
  | compacted
  | systemNote
deriving DecidableEq, Repr

/-- `StepView.status` values. -/
inductive StepStatus
  | pending
  | inProgress
  | completed
  | failed
  | declined
deriving DecidableEq, Repr

/-- one element of `ItemPayload.content`. -/
structure ContentPart where
  type : String
  text : Option String := none
  url : Option String := none
  path : Option String := none
deriving DecidableEq, Repr

/-- `{ message: string }` error objects carried by tool-call items. -/
structure ErrMsg where
  message : String
deriving DecidableEq, Repr

/-- the `ItemPayload` shape read by `IrMapper.consume` (`arguments` and
`result` are `unknown` in the source and embedded as opaque strings). -/
structure ItemPayload where
  id : Option String := none
  type : Option String := none
  status : Option String := none
  content : Option (List ContentPart) := none
  command : Option String := none
  cwd : Option String := none
  aggregatedOutput : Option String := none
  exitCode : Option Int := none
  durationMs : Option Nat := none
  changes : Option (List Change) := none
  server : Option String := none
  tool : Option String := none
  arguments : Option String := none
  result : Option String := none
  error : Option ErrMsg := none
  query : Option String := none
  text : Option String := none
deriving DecidableEq, Repr

/-- the `payload.turn` object (`{ id?, threadId?, status? }`). -/
structure TurnObj where
  id : Option String := none
  threadId : Option String := none
  status : Option String := none
deriving DecidableEq, Repr

/-- the `payload.thread` object (`{ id? }`). -/
structure ThreadObj where
  id : Option String := none
deriving DecidableEq, Repr

/-- one entry of `payload.plan` (`{ step, status }`). -/
structure PlanItem where
  step : String
  status : String
deriving DecidableEq, Repr

/-- the dynamic payload map, restricted to the keys `IrMapper.consume`
actually reads (every key may be absent). -/
structure Payload where
  threadId : Option String := none
  turnId : Option String := none
  thread : Option ThreadObj := none
  turn : Option TurnObj := none
  item : Option ItemPayload := none
  itemId : Option String := none
  delta : Option String := none
  text : Option String := none
  plan : Option (List PlanItem) := none
  explanation : Option String := none
  diff : Option String := none
  inputTokens : Option Nat := none
  outputTokens : Option Nat := none
  totalTokens : Option Nat := none
  approvalId : Option String := none
  reason : Option String := none
  risk : Option String := none
deriving DecidableEq, Repr

/-- `RawEvent` (supervisor-produced, mapper-consumed); `rpcId` is embedded
after the JS `String(...)` conversion. -/
structure RawEvent where
  id : String
  ts : Nat
  threadId : Option String := none
  turnId : Option String := none
  type : String
  payload : Option Payload := none
  rpcId : Option String := none
deriving DecidableEq, Repr

/-- `step.meta` as a JS object: the outer `Option` of each field records
whether the key is present, the inner value may itself be `undefined`
(`{ command: undefined }` keeps the key). -/
structure MetaObj where
  content : Option (Option (List ContentPart)) := none
  text : Option (Option String) := none
  command : Option (Option String) := none
  cwd : Option (Option String) := none
  changes : Option (Option (List Change)) := none
  server : Option (Option String) := none
  tool : Option (Option String) := none
  arguments : Option (Option String) := none
  query : Option (Option String) := none
  action : Option (Option String) := none
deriving DecidableEq, Repr

/-- `step.result` as a JS object (same present/undefined encoding). -/
structure ResultObj where
  output : Option (Option String) := none
  exitCode : Option (Option Int) := none
  durationMs : Option (Option Nat) := none
  changes : Option (Option (List Change)) := none
  result : Option (Option String) := none
  error : Option (Option ErrMsg) := none
deriving DecidableEq, Repr

/-- `ApprovalView.status` values (from src/types/ir.ts; field set as in the
spec data model, the mapper itself only ever writes `pending`). -/
inductive ApprovalViewStatus
  | pending
  | accepted
  | declined
  | timeout
deriving DecidableEq, Repr

/-- `ApprovalView`. -/
structure ApprovalView where
  approvalId : String
  status : ApprovalViewStatus
  reason : Option String := none
  risk : Option String := none
deriving DecidableEq, Repr

/-- `StepView`. -/
structure StepView where
  stepId : String
  itemId : String
  kind : StepKind
  status : StepStatus
  threadId : String
  turnId : Option String := none
  tsStart : Option Nat := none
  tsEnd : Option Nat := none
  meta : Option MetaObj := none
  result : Option ResultObj := none
  stream : Option String := none
  approval : Option ApprovalView := none
  rawEventIds : List String := []
deriving DecidableEq, Repr

/-- one archived plan version inside `plan.history`. -/
structure PlanSnap where
  updatedAt : Nat
  steps : List PlanItem
deriving DecidableEq, Repr

/-- `RunView.plan`. -/
structure PlanV where
  turnId : Option String := none
  updatedAt : Nat
  explanation : Option String := none
  steps : List PlanItem := []
  history : Option (List PlanSnap) := none
deriving DecidableEq, Repr

/-- `RunView.diff`. -/
structure DiffV where
  turnId : Option String := none
  updatedAt : Nat
  diff : String
deriving DecidableEq, Repr

/-- `RunView.tokenUsage`. -/
structure TokenUsageV where
  updatedAt : Nat
  inputTokens : Option Nat := none
  outputTokens : Option Nat := none
  totalTokens : Option Nat := none
deriving DecidableEq, Repr

/-- `run.meta`: the only key the mapper ever writes is `lastTurnId`. -/
structure RunMeta where
  lastTurnId : Option String := none
deriving DecidableEq, Repr

/-- the stored per-thread run record; `stepKeys` is the ordered list of step
table keys standing for the JS `run.steps` array of object references. -/
structure RunViewCore where
  runId : String
  createdAt : Option Nat := none
  status : Option String := none
  meta : Option RunMeta := none
  plan : Option PlanV := none
  diff : Option DiffV := none
  tokenUsage : Option TokenUsageV := none
  stepKeys : List String := []
deriving DecidableEq, Repr

/-- the materialized `RunView` snapshot handed to consumers (steps
dereferenced). -/
structure RunView where
  runId : String
  createdAt : Option Nat := none
  status : Option String := none
  meta : Option RunMeta := none
  plan : Option PlanV := none
  diff : Option DiffV := none
  tokenUsage : Option TokenUsageV := none
  steps : List StepView := []
deriving DecidableEq, Repr

/-- the `IrMapper` instance state (`rawEvents`, `runs`, `steps`). -/
structure MapperState where
  rawEvents : List RawEvent := []
  runs : List (String × RunViewCore) := []
  steps : List (String × StepView) := []
deriving DecidableEq, Repr

/-- a fresh `IrMapper`. -/
def emptyMapper : MapperState := {}

/-- JS `Map.get`. -/
def lookupA (l : List (String × α)) (k : String) : Option α :=
  match l with
  | [] => none
  | (k1, v) :: rest => if k1 = k then some v else lookupA rest k

/-- update the value stored under an existing key in place (keys are unique
by construction, insertion order is preserved as in a JS `Map`). -/
def updA (l : List (String × α)) (k : String) (f : α → α) : List (String × α) :=
  l.map (fun p => (p.1, if p.1 = k then f p.2 else p.2))

/-- JS `Map.delete`. -/
def removeA (l : List (String × α)) (k : String) : List (String × α) :=
  l.filter (fun p => p.1 != k)

/-- Modelled from the spec: `createEmptyRunView` lives in `src/types/ir.ts`,
which is not part of the extract; per the spec's data model (§3) and the IR
plan document, a fresh run has `runId = threadId`, an empty `steps` array and
every optional top-level field unset. -/
def createEmptyRunView (threadId : String) : RunViewCore :=
  { runId := threadId }

/-- `IrMapper.getOrCreateRun`, as a state update (create-if-absent; JS `Map`
appends new keys at the end). -/
def ensureRun (runs : List (String × RunViewCore)) (tid : String) :
    List (String × RunViewCore) :=
  if (lookupA runs tid).isSome then runs
  else runs ++ [(tid, createEmptyRunView tid)]

/-- the step-table key `threadId + ":" + itemId`. -/
def stepKey (threadId itemId : String) : String :=
  threadId ++ ":" ++ itemId

/-- the fresh `StepView` built by `IrMapper.getOrCreateStep`. -/
def newStep (threadId itemId : String) (kind : StepKind) (turnId : Option String) :
    StepView :=
  { stepId := itemId
    itemId := itemId
    kind := kind
    status := .pending
    threadId := threadId
    turnId := turnId
    rawEventIds := [] }

/-- the turnId backfill `if (!existing.turnId && turnId) existing.turnId = turnId`
performed by `getOrCreateStep` on an existing step. -/
def turnFix (turnId : Option String) (st : StepView) : StepView :=
  if !truthyS st.turnId && truthyS turnId then { st with turnId := turnId } else st

/-- `IrMapper.getOrCreateStep` as a state update: backfill the turn id of an
existing step, or create the step, register it in the step table and push its
key onto the owning run's step list. -/
def getOrCreateStepSt (s : MapperState) (threadId itemId : String)
    (kind : StepKind) (turnId : Option String) : MapperState :=
  match lookupA s.steps (stepKey threadId itemId) with
  | some _ => { s with steps := updA s.steps (stepKey threadId itemId) (turnFix turnId) }
  | none =>
      { s with
        steps := s.steps ++ [(stepKey threadId itemId, newStep threadId itemId kind turnId)]
        runs := updA (ensureRun s.runs threadId) threadId
          (fun r => { r with stepKeys := r.stepKeys ++ [stepKey threadId itemId] }) }

/-- `IrMapper.extractThreadId`:
`payload?.threadId ?? payload?.turn?.threadId ?? payload?.thread?.id`. -/
def extractThreadId (p : Option Payload) : Option String :=
  jsOr (p.bind (fun x => x.threadId))
    (jsOr ((p.bind (fun x => x.turn)).bind (fun t => t.threadId))
      ((p.bind (fun x => x.thread)).bind (fun t => t.id)))

/-- `IrMapper.extractTurnId`: `payload?.turnId ?? payload?.turn?.id`. -/
def extractTurnId (p : Option Payload) : Option String :=
  jsOr (p.bind (fun x => x.turnId)) ((p.bind (fun x => x.turn)).bind (fun t => t.id))

/-- `IrMapper.mapStatus` (unknown / absent item status defaults to
`completed`). -/
def mapStatus (status : Option String) : StepStatus :=
  match status with
  | some "completed" => .completed
  | some "failed" => .failed
  | some "declined" => .declined
  | some "inProgress" => .inProgress
  | _ => .completed

/-- `IrMapper.mapStepKind` (unknown item types map to `systemNote`). -/
def mapStepKind (itemType : Option String) : StepKind :=
  match itemType with
  | some "userMessage" => .userMessage
  | some "agentMessage" => .assistantMessage
  | some "reasoning" => .reasoning
  | some "commandExecution" => .commandExecution
  | some "fileChange" => .fileChange
  | some "mcpToolCall" => .mcpToolCall
  | some "collabToolCall" => .collabToolCall
  | some "webSearch" => .webSearch
  | some "imageView" => .imageView
  | some "enteredReviewMode" => .reviewMode
  | some "exitedReviewMode" => .reviewMode
  | some "compacted" => .compacted
  | _ => .systemNote

/-- `IrMapper.mapApprovalKind`. -/
def mapApprovalKind (method : String) : StepKind :=
  if jsIncludes method "commandExecution" then .commandExecution
  else if jsIncludes method "fileChange" then .fileChange
  else .systemNote

/-- `IrMapper.inferKindFromDelta`. -/
def inferKindFromDelta (method : String) : StepKind :=
  if jsIncludes method "agentMessage" then .assistantMessage
  else if jsIncludes method "reasoning" then .reasoning
  else if jsIncludes method "commandExecution" then .commandExecution
  else if jsIncludes method "fileChange" then .fileChange
  else .systemNote

/-- `IrMapper.flattenUserContent`. -/
def flattenUserContent (content : Option (List ContentPart)) : Option String :=
  match content with
  | none => none
  | some l =>
      if l.isEmpty then none
      else
        let parts := (l.filter (fun it => it.type == "text" && truthyS it.text)).map
          (fun it => it.text.getD "")
        if parts.isEmpty then none else some (String.intercalate "\n" parts)

/-- `IrMapper.extractItemMeta` (returns a JS object whose key set is fixed by
the item type; values may be `undefined`). -/
def extractItemMeta (item : ItemPayload) : Option MetaObj :=
  match item.type with
  | some "userMessage" =>
      some { content := some item.content, text := some (flattenUserContent item.content) }
  | some "commandExecution" =>
      some { command := some item.command, cwd := some item.cwd }
  | some "fileChange" => some { changes := some item.changes }
  | some "mcpToolCall" =>
      some {
        server := some item.server
        tool := some item.tool
        arguments := some item.arguments }
  | some "collabToolCall" =>
      some {
        server := some item.server
        tool := some item.tool
        arguments := some item.arguments }
  | some "webSearch" => some { query := some item.query }
  | some "enteredReviewMode" => some { action := some item.type }
  | some "exitedReviewMode" => some { action := some item.type }
  | _ => none

/-- the JS object spread `{ ...old, ...patch }` (always yields an object;
keys present in `patch` win). -/
def mergeMeta (old patch : Option MetaObj) : MetaObj :=
  let a := old.getD {}
  let b := patch.getD {}
  { content := jsOr b.content a.content
    text := jsOr b.text a.text
    command := jsOr b.command a.command
    cwd := jsOr b.cwd a.cwd
    changes := jsOr b.changes a.changes
    server := jsOr b.server a.server
    tool := jsOr b.tool a.tool
    arguments := jsOr b.arguments a.arguments
    query := jsOr b.query a.query
    action := jsOr b.action a.action }

/-- `IrMapper.extractItemResult`. -/
def extractItemResult (item : ItemPayload) : Option ResultObj :=
  match item.type with
  | some "commandExecution" =>
      some {
        output := some item.aggregatedOutput
        exitCode := some item.exitCode
        durationMs := some item.durationMs }
  | some "fileChange" => some { changes := some item.changes }
  | some "mcpToolCall" => some { result := some item.result, error := some item.error }
  | some "collabToolCall" => some { result := some item.result, error := some item.error }
  | _ => none

/-- `IrMapper.buildApproval`:
`approvalId = payload?.approvalId ?? String(event.rpcId ?? event.id)`. -/
def buildApproval (event : RawEvent) (p : Option Payload) : ApprovalView :=
  { approvalId := (p.bind (fun x => x.approvalId)).getD (event.rpcId.getD event.id)
    status := .pending
    reason := p.bind (fun x => x.reason)
    risk := p.bind (fun x => x.risk) }

/-- the conditional force-transition applied to one step by the reasoning
auto-close loops (`turn/completed` and `item/started` cases). -/
def closeFn (keys : List String) (t : String) (ts : Nat) (k : String) (st : StepView) :
    StepView :=
  if k ∈ keys ∧ st.turnId = some t ∧ st.kind = .reasoning ∧ st.status = .inProgress then
    { st with status := .completed, tsEnd := some ts }
  else st

/-- close every `inProgress` reasoning step of turn `t` registered in run
`tid` (`status = completed`, `tsEnd = ts`): the loop bodies of the
`turn/completed` and `item/started` cases. -/
def closeReasoningSteps (s : MapperState) (tid t : String) (ts : Nat) : MapperState :=
  match lookupA s.runs tid with
  | none => s
  | some run =>
      { s with steps := s.steps.map (fun p => (p.1, closeFn run.stepKeys t ts p.1 p.2)) }

/-- the `item/started` step mutation. -/
def startedUpd (item : ItemPayload) (ts : Nat) (eid : String) (st : StepView) : StepView :=
  { st with
    status := .inProgress
    tsStart := some ts
    meta := some (mergeMeta st.meta (extractItemMeta item))
    rawEventIds := st.rawEventIds ++ [eid] }

/-- the `item/completed` step mutation. -/
def completedUpd (item : ItemPayload) (ts : Nat) (eid : String) (st : StepView) : StepView :=
  { st with
    status := if item.type = some "reasoning" then .completed else mapStatus item.status
    tsEnd := some ts
    result := extractItemResult item
    rawEventIds := st.rawEventIds ++ [eid] }

/-- the delta-family step mutation (append to `stream`). -/
def deltaUpd (delta : String) (eid : String) (st : StepView) : StepView :=
  { st with
    stream := some ((st.stream.getD "") ++ delta)
    rawEventIds := st.rawEventIds ++ [eid] }

/-- the requestApproval step mutation. -/
def approvalUpd (a : ApprovalView) (eid : String) (st : StepView) : StepView :=
  { st with
    approval := some a
    status := .pending
    rawEventIds := st.rawEventIds ++ [eid] }

/-- the five delta methods handled by one `switch` group in the source. -/
def isDeltaType (t : String) : Bool :=
  t == "item/agentMessage/delta" || t == "item/reasoning/summaryTextDelta" ||
  t == "item/reasoning/summaryPartAdded" || t == "item/reasoning/textDelta" ||
  t == "item/commandExecution/outputDelta" || t == "item/fileChange/outputDelta"

/-- apply a step mutation under the given step-table key. -/
def applyStepUpd (s : MapperState) (key : String) (f : StepView → StepView) : MapperState :=
  { s with steps := updA s.steps key f }

/-- the run-level field updates of the `turn/completed` case (status and
`meta.lastTurnId`), before the reasoning auto-close loop. -/
def turnCompletedRun (s : MapperState) (tid : String)
    (turnId : Option String) (payload : Option Payload) : MapperState :=
  { s with
    runs := updA s.runs tid (fun r =>
      { r with
        status := jsOr ((payload.bind (fun x => x.turn)).bind (fun t => t.status))
            (jsOr r.status (some "completed"))
        meta := some { lastTurnId := jsOr ((payload.bind (fun x => x.turn)).bind (fun t => t.id)) turnId } }) }

/-- the `item/started` case body (close in-progress reasoning steps of the
turn unless the item itself is reasoning, then get-or-create the step and mark
it in progress). -/
def startedCase (s : MapperState) (e : RawEvent) (tid : String)
    (turnId : Option String) (item : ItemPayload) : MapperState :=
  if truthyS item.id then
    applyStepUpd
      (getOrCreateStepSt
        (if item.type ≠ some "reasoning" ∧ truthyS turnId = true then
          closeReasoningSteps s tid (turnId.getD "") e.ts
         else s)
        tid (item.id.getD "") (mapStepKind item.type) turnId)
      (stepKey tid (item.id.getD "")) (startedUpd item e.ts e.id)
  else s

/-- the `item/completed` case body. -/
def completedCase (s : MapperState) (e : RawEvent) (tid : String)
    (turnId : Option String) (item : ItemPayload) : MapperState :=
  if truthyS item.id then
    applyStepUpd (getOrCreateStepSt s tid (item.id.getD "") (mapStepKind item.type) turnId)
      (stepKey tid (item.id.getD "")) (completedUpd item e.ts e.id)
  else s

/-- the `switch (event.type)` body of `IrMapper.consume` (the run for `tid`
already exists; `turnId` is the resolved turn id). -/
def dispatchEvent (s : MapperState) (event : RawEvent) (tid : String)
    (turnId : Option String) (payload : Option Payload) : MapperState :=
  if event.type = "thread/started" then
    { s with
      runs := updA
        (ensureRun s.runs (((payload.bind (fun x => x.thread)).bind (fun t => t.id)).getD tid))
        (((payload.bind (fun x => x.thread)).bind (fun t => t.id)).getD tid)
        (fun r => { r with createdAt := some event.ts }) }
  else if event.type = "turn/started" then
    { s with
      runs := updA s.runs tid (fun r =>
        { r with
          status := some "inProgress"
          meta := some { lastTurnId := jsOr ((payload.bind (fun x => x.turn)).bind (fun t => t.id)) turnId } }) }
  else if event.type = "turn/completed" then
    if truthyS turnId then
      closeReasoningSteps (turnCompletedRun s tid turnId payload) tid (turnId.getD "") event.ts
    else turnCompletedRun s tid turnId payload
  else if event.type = "turn/plan/updated" then
    { s with
      runs := updA s.runs tid (fun r =>
        let newHistory := match r.plan with
          | some p => some ((p.history.getD []) ++ [{ updatedAt := p.updatedAt, steps := p.steps }])
          | none => none
        { r with
          plan := some {
            turnId := turnId
            updatedAt := event.ts
            explanation := payload.bind (fun x => x.explanation)
            steps := (payload.bind (fun x => x.plan)).getD []
            history := newHistory } }) }
  else if event.type = "turn/diff/updated" then
    { s with
      runs := updA s.runs tid (fun r =>
        { r with
          diff := some {
            turnId := turnId
            updatedAt := event.ts
            diff := (payload.bind (fun x => x.diff)).getD "" } }) }
  else if event.type = "thread/tokenUsage/updated" then
    { s with
      runs := updA s.runs tid (fun r =>
        { r with
          tokenUsage := some {
            updatedAt := event.ts
            inputTokens := payload.bind (fun x => x.inputTokens)
            outputTokens := payload.bind (fun x => x.outputTokens)
            totalTokens := payload.bind (fun x => x.totalTokens) } }) }
  else if event.type = "item/started" then
    match payload.bind (fun x => x.item) with
    | none => s
    | some item => startedCase s event tid turnId item
  else if event.type = "item/completed" then
    match payload.bind (fun x => x.item) with
    | none => s
    | some item => completedCase s event tid turnId item
  else if isDeltaType event.type then
    if truthyS (payload.bind (fun x => x.itemId)) then
      applyStepUpd
        (getOrCreateStepSt s tid ((payload.bind (fun x => x.itemId)).getD "")
          (inferKindFromDelta event.type) turnId)
        (stepKey tid ((payload.bind (fun x => x.itemId)).getD ""))
        (deltaUpd ((jsOr (payload.bind (fun x => x.delta)) (payload.bind (fun x => x.text))).getD "") event.id)
    else s
  else if event.type = "item/commandExecution/requestApproval" ∨
      event.type = "item/fileChange/requestApproval" then
    if truthyS (payload.bind (fun x => x.itemId)) then
      applyStepUpd
        (getOrCreateStepSt s tid ((payload.bind (fun x => x.itemId)).getD "")
          (mapApprovalKind event.type) turnId)
        (stepKey tid ((payload.bind (fun x => x.itemId)).getD ""))
        (approvalUpd (buildApproval event payload) event.id)
    else s
  else s

/-- materialize the `RunView` snapshot returned for thread `tid`. -/
def snapshotRun (s : MapperState) (tid : String) : RunView :=
  match lookupA s.runs tid with
  | none => { runId := tid }
  | some r =>
      { runId := r.runId
        createdAt := r.createdAt
        status := r.status
        meta := r.meta
        plan := r.plan
        diff := r.diff
        tokenUsage := r.tokenUsage
        steps := r.stepKeys.filterMap (lookupA s.steps) }

/-- `event.threadId ?? extractThreadId(payload)`. -/
def resolvedThread (e : RawEvent) : Option String :=
  jsOr e.threadId (extractThreadId e.payload)

/-- `event.turnId ?? extractTurnId(payload)`. -/
def resolvedTurn (e : RawEvent) : Option String :=
  jsOr e.turnId (extractTurnId e.payload)

/-- `this.rawEvents.push(event)`. -/
def logEvent (s : MapperState) (e : RawEvent) : MapperState :=
  { s with rawEvents := s.rawEvents ++ [e] }

/-- ensure the run for `tid` exists (the `getOrCreateRun` call made before the
switch). -/
def withRun (s : MapperState) (tid : String) : MapperState :=
  { s with runs := ensureRun s.runs tid }

/-- `IrMapper.consume`: append to the raw log, resolve a truthy `threadId`
(drop and return `undefined` when it is absent or empty), ensure the run
exists, dispatch on the event type and return the snapshot of the run for the
resolved thread. -/
def consume (s : MapperState) (event : RawEvent) : MapperState × Option RunView :=
  match resolvedThread event with
  | none => (logEvent s event, none)
  | some tid =>
      if tid = "" then (logEvent s event, none)
      else
        (dispatchEvent (withRun (logEvent s event) tid) event tid (resolvedTurn event) event.payload,
         some (snapshotRun
           (dispatchEvent (withRun (logEvent s event) tid) event tid (resolvedTurn event) event.payload)
           tid))

/-! ### C1 / C9 concrete material -/

/-- an `ApprovalConfig` with no auto-approve lists configured. -/
def emptyApprovalCfg : ApprovalConfig :=
  { timeoutMs := 300000, defaultAction := .decline, autoApprove := none }

/-- a command-execution approval request for the given command. -/
def cmdReq (command : String) : ApprovalRequestU :=
  .cmd {
    itemId := "i1"
    threadId := "t1"
    turnId := "u1"
    command := command
    cwd := "/home/u" }

/-! ## Agent supervisor RPC correlation (src/core/codex-app-server.ts) -/

/-- the supervisor's pending-request table: outgoing id ↦ deadline (epoch
ms, `sendTime + 60000`); the waiter itself is represented by the entry's
presence. -/
structure SupRpcState where
  requestId : Nat := 0
  pending : List (Nat × Nat) := []
deriving DecidableEq, Repr

/-- observable effects on the waiters of the pending-request table. -/
inductive RpcOutput
  | timeoutReject (id : Nat) (message : String)
  | resolved (id : Nat)
  | errorReject (id : Nat) (message : String)
deriving DecidableEq, Repr

/-- `CodexAppServer.sendRequest`: allocate `++this.requestId`, store the
waiter and arm a 60 000 ms timer; returns the fresh id. -/
def sendRequest (s : SupRpcState) (now : Nat) : SupRpcState × Nat :=
  ({ requestId := s.requestId + 1
     pending := s.pending ++ [(s.requestId + 1, now + 60000)] }, s.requestId + 1)

/-- the timer body installed by `sendRequest`: if the entry is still pending,
remove it and reject the waiter with `Request timeout: <method>`. -/
def fireRequestTimeout (s : SupRpcState) (id : Nat) (method : String) :
    SupRpcState × List RpcOutput :=
  if s.pending.any (fun p => p.1 == id) then
    ({ s with pending := s.pending.filter (fun p => p.1 != id) },
     [.timeoutReject id ("Request timeout: " ++ method)])
  else (s, [])

/-- the Response branch of `CodexAppServer.handleMessage`: resolve or reject
the matching waiter and drop the entry; a response with no matching entry
(e.g. one arriving after the deadline removed it) is discarded silently. -/
def handleResponseMsg (s : SupRpcState) (id : Nat) (isError : Bool) (message : String) :
    SupRpcState × List RpcOutput :=
  if s.pending.any (fun p => p.1 == id) then
    ({ s with pending := s.pending.filter (fun p => p.1 != id) },
     [if isError then .errorReject id message else .resolved id])
  else (s, [])

/-! ## Approval broker pending table (src/gateway/websocket-gateway.ts) -/

/-- a `PendingApproval` entry; `timerActive` embeds whether the armed
`setTimeout` is still able to fire (false once `clearTimeout` ran). -/
structure PendingApprovalE where
  requestId : String
  sessionId : String
  userId : String
  createdAt : Nat
  timerActive : Bool
deriving DecidableEq, Repr

/-- `ApprovalResponse` as actually transmitted at runtime: both fields come
from the client payload unvalidated, so either may be an arbitrary string or
absent. -/
structure ApprovalResponseW where
  decision : Option String := none
  acceptSettings : Option String := none
deriving DecidableEq, Repr

/-- the JSON-RPC Response `{ id, result }` sent back to the agent. -/
structure JsonRpcResponseOut where
  id : String
  result : ApprovalResponseW
deriving DecidableEq, Repr

/-- `CodexAppServer.respondToApproval`. -/
def respondToApproval (requestId : String) (response : ApprovalResponseW) :
    JsonRpcResponseOut :=
  { id := requestId, result := response }

/-- the gateway's `pendingApprovals` map. -/
structure GatewayState where
  pendingApprovals : List (String × PendingApprovalE) := []
deriving DecidableEq, Repr

/-- the configured `approval.defaultAction` rendered as the decision
string. -/
def defaultActionStr : DefaultAction → String
  | .accept => "accept"
  | .decline => "decline"

/-- the `approval/respond` client payload
(`const { approvalId, decision, acceptSettings } = payload`). -/
structure RespondPayload where
  approvalId : String
  decision : Option String := none
  acceptSettings : Option String := none
deriving DecidableEq, Repr

/-- `WebSocketGateway.handleApprovalTimeout`; `sessionAlive` stands for
`sessionManager.getSession(pending.sessionId)` being defined. The entry is
deleted in both branches, but a Response is sent only when the session is
still there. -/
def handleApprovalTimeout (defaultAction : DefaultAction) (g : GatewayState)
    (approvalId : String) (sessionAlive : Bool) :
    GatewayState × List JsonRpcResponseOut :=
  match lookupA g.pendingApprovals approvalId with
  | none => (g, [])
  | some pending =>
      ({ pendingApprovals := removeA g.pendingApprovals approvalId },
       if sessionAlive then
         [respondToApproval pending.requestId
           { decision := some (defaultActionStr defaultAction) }]
       else [])

/-- `WebSocketGateway.handleApprovalResponse`: unknown approvalId or session
mismatch drops the message; otherwise the timer is cleared, and — only if the
session still exists — the client decision is forwarded verbatim and the
entry removed. With the session gone the handler returns after `clearTimeout`
leaving the entry in the table. -/
def handleApprovalResponse (g : GatewayState) (sessionId : String)
    (payload : RespondPayload) (sessionAlive : Bool) :
    GatewayState × List JsonRpcResponseOut :=
  match lookupA g.pendingApprovals payload.approvalId with
  | none => (g, [])
  | some pending =>
      if pending.sessionId ≠ sessionId then (g, [])
      else
        if sessionAlive then
          ({ pendingApprovals := removeA (updA g.pendingApprovals payload.approvalId
              (fun p => { p with timerActive := false })) payload.approvalId },
           [respondToApproval pending.requestId
             { decision := payload.decision, acceptSettings := payload.acceptSettings }])
        else
          ({ pendingApprovals := updA g.pendingApprovals payload.approvalId
              (fun p => { p with timerActive := false }) }, [])

/-- the broker events that can settle a pending approval. -/
inductive GwEvent
  | timerFires (approvalId : String) (sessionAlive : Bool)
  | clientRespond (sessionId : String) (payload : RespondPayload) (sessionAlive : Bool)
deriving DecidableEq, Repr

/-- one broker step: a cleared or never-armed timer does not fire (the guard
models `clearTimeout`); otherwise the source handlers run verbatim. -/
def gwStep (defaultAction : DefaultAction) (g : GatewayState) (ev : GwEvent) :
    GatewayState × List JsonRpcResponseOut :=
  match ev with
  | .timerFires aid alive =>
      if (lookupA g.pendingApprovals aid).elim false (fun p => p.timerActive) then
        handleApprovalTimeout defaultAction g aid alive
      else (g, [])
  | .clientRespond sid payload alive => handleApprovalResponse g sid payload alive

/-! ## Agent supervisor IR tap

Modelled from the spec: the IR-integrated `CodexAppServer.handleMessage` is
not part of the extract — `src/core/codex-app-server.ts` there predates Task 4
of the IR plan document, while `tests/codex-app-server-ir.test.ts` already
exercises the `ir/update` emission. The model follows §4.2 of the spec:
approval requests go to the Approval Broker; every other incoming Request and
every Notification becomes a RawEvent (fresh monotonic id, the given
wall-clock ts, thread/turn extraction with inheritance of the last known ids,
method name retained as `type`) that is passed to the IR Mapper, and whenever
the mapper returns an updated RunView the supervisor emits a run update. -/

/-- supervisor state for the IR tap. -/
structure SupTapState where
  nextEventId : Nat := 0
  lastThreadId : Option String := none
  lastTurnId : Option String := none
  mapper : MapperState := {}
deriving DecidableEq, Repr

/-- an incoming agent message relevant to the tap. -/
inductive SupMsg
  | request (id : String) (method : String) (params : Option Payload)
  | notif (method : String) (params : Option Payload)
deriving DecidableEq, Repr

/-- the supervisor's observable emissions. -/
inductive SupOutput
  | approvalRequest (id : String) (method : String)
  | eventOut (method : String) (params : Option Payload)
  | runUpdate (rv : RunView)
deriving DecidableEq, Repr

/-- the two approval methods routed to the broker instead of the tap. -/
def isApprovalMethod (m : String) : Bool :=
  m == "item/commandExecution/requestApproval" || m == "item/fileChange/requestApproval"

/-- Modelled from the spec: RawEvent construction of the IR tap. -/
def buildRawEvent (st : SupTapState) (ts : Nat) (method : String)
    (params : Option Payload) (rpcId : Option String) : RawEvent :=
  { id := "evt-" ++ toString st.nextEventId
    ts := ts
    threadId := jsOr (extractThreadId params) st.lastThreadId
    turnId := jsOr (extractTurnId params) st.lastTurnId
    type := method
    payload := params
    rpcId := rpcId }

/-- Modelled from the spec: feed the constructed RawEvent to the mapper and
emit `ir/update` whenever it returns an updated RunView. -/
def tapConsume (st : SupTapState) (ts : Nat) (method : String)
    (params : Option Payload) (rpcId : Option String) : SupTapState × List SupOutput :=
  ({ nextEventId := st.nextEventId + 1
     lastThreadId := jsOr (extractThreadId params) st.lastThreadId
     lastTurnId := jsOr (extractTurnId params) st.lastTurnId
     mapper := (consume st.mapper (buildRawEvent st ts method params rpcId)).1 },
   match (consume st.mapper (buildRawEvent st ts method params rpcId)).2 with
   | some rv => [.runUpdate rv]
   | none => [])

/-- Modelled from the spec: incoming dispatch of the supervisor (approval
requests to the broker; other Requests tapped; Notifications surfaced on the
event tap and tapped). -/
def supervisorHandleMessage (st : SupTapState) (ts : Nat) (msg : SupMsg) :
    SupTapState × List SupOutput :=
  match msg with
  | .request id method params =>
      if isApprovalMethod method then (st, [.approvalRequest id method])
      else tapConsume st ts method params (some id)
  | .notif method params =>
      (  (tapConsume st ts method params none).1,
        .eventOut method params :: (tapConsume st ts method params none).2)

/-- forget a step's `rawEventIds` (used to compare RunViews up to the raw
event bookkeeping). -/
def stripStep (st : StepView) : StepView :=
  { st with rawEventIds := [] }

/-- forget `rawEventIds` in every step of a RunView snapshot. -/
def stripRV (r : RunView) : RunView :=
  { r with steps := r.steps.map stripStep }

/-- the event types handled by the `switch` of `IrMapper.consume`. -/
def knownTypes : List String :=
  ["thread/started", "turn/started", "turn/completed", "turn/plan/updated",
   "turn/diff/updated", "thread/tokenUsage/updated", "item/started",
   "item/completed", "item/agentMessage/delta", "item/reasoning/summaryTextDelta",
   "item/reasoning/summaryPartAdded", "item/reasoning/textDelta",
   "item/commandExecution/outputDelta", "item/fileChange/outputDelta",
   "item/commandExecution/requestApproval", "item/fileChange/requestApproval"]

/-- S4 step (a): `item/started` for commandExecution item `i1` at ts 1. -/
def evCmdStarted : RawEvent :=
  { id := "e1"
    ts := 1
    threadId := some "thr1"
    turnId := some "u1"
    type := "item/started"
    payload := some {
      threadId := some "thr1"
      turnId := some "u1"
      item := some {
        id := some "i1"
        type := some "commandExecution"
        command := some "ls"
        cwd := some "/" } } }

/-- S4 step (c): terminal `item/completed` for item `i1` at ts 2. -/
def evCmdCompleted : RawEvent :=
  { id := "e2"
    ts := 2
    threadId := some "thr1"
    turnId := some "u1"
    type := "item/completed"
    payload := some {
      threadId := some "thr1"
      turnId := some "u1"
      item := some {
        id := some "i1"
        type := some "commandExecution"
        status := some "completed"
        aggregatedOutput := some "ok"
        exitCode := some 0 } } }

/-- a second `item/started` for the already-completed item `i1`, at ts 9. -/
def evCmdRestarted : RawEvent :=
  { id := "e3"
    ts := 9
    threadId := some "thr1"
    turnId := some "u1"
    type := "item/started"
    payload := some {
      threadId := some "thr1"
      turnId := some "u1"
      item := some {
        id := some "i1"
        type := some "commandExecution"
        command := some "ls"
        cwd := some "/" } } }

/-- mapper state after consuming `evCmdStarted` from scratch. -/
def mapperAfterStart : MapperState := (consume emptyMapper evCmdStarted).1

/-- mapper state after additionally consuming `evCmdCompleted`. -/
def mapperAfterComplete : MapperState := (consume mapperAfterStart evCmdCompleted).1

/-- a `thread/started` event whose thread id only lives in the payload. -/
def evThreadStarted : RawEvent :=
  { id := "t1"
    ts := 0
    type := "thread/started"
    payload := some { thread := some { id := some "thr1" } } }

/-- an event of a type unknown to the mapper, addressed to thread `thr1`. -/
def evBogus : RawEvent :=
  { id := "b1"
    ts := 5
    threadId := some "thr1"
    type := "bogus/event" }

/-- mapper state after consuming `evThreadStarted` from scratch. -/
def mapperAfterThread : MapperState := (consume emptyMapper evThreadStarted).1

/-- S5 first event: `item/started` for reasoning item `i2` at ts 3. -/
def evReasoningStarted : RawEvent :=
  { id := "r1"
    ts := 3
    threadId := some "thr1"
    turnId := some "u1"
    type := "item/started"
    payload := some {
      threadId := some "thr1"
      turnId := some "u1"
      item := some { id := some "i2", type := some "reasoning" } } }

/-- S5 second event: `item/started` for commandExecution item `i3` at ts 9. -/
def evCmdStartedS5 : RawEvent :=
  { id := "r2"
    ts := 9
    threadId := some "thr1"
    turnId := some "u1"
    type := "item/started"
    payload := some {
      threadId := some "thr1"
      turnId := some "u1"
      item := some {
        id := some "i3"
        type := some "commandExecution"
        command := some "ls"
        cwd := some "/" } } }

/-- mapper state after consuming `evReasoningStarted` from scratch. -/
def mapperS5 : MapperState := (consume emptyMapper evReasoningStarted).1

/-- C1: the built-in read-only set contains the multi-word entries
`git status` and `npm list`, yet `evaluate` (with empty auto-approve
configuration) answers `manual` for exactly those commands, because
`isReadOnlyCommand` looks up only the first whitespace token (`git`, `npm`),
under which the multi-word entries are unreachable; single-word entries such
as `ls` still auto-accept. -/
theorem C1_multiword_readonly_commands_dead :
    readOnlyCommands.contains "git status" = true ∧
    readOnlyCommands.contains "npm list" = true ∧
    evaluate emptyApprovalCfg (cmdReq "git status") = .manual ∧
    evaluate emptyApprovalCfg (cmdReq "npm list") = .manual ∧
    evaluate emptyApprovalCfg (cmdReq "git diff HEAD") = .manual ∧
    evaluate emptyApprovalCfg (cmdReq "ls -la") = .accept := by
  decide

/-- C9: `summarizeError` matches case-insensitively over `details` in order:
`401`/`invalid_api_key` win over `timeout`, `timeout` wins over the default,
and a string containing both `401` and `timeout` yields the authentication
summary. -/
theorem C9_summarizeError_classifier (details : String) :
    ((jsIncludes (jsToLower details) "401" || jsIncludes (jsToLower details) "invalid_api_key") = true →
      summarizeError details = "鉴权失败：API Key 无效") ∧
    ((jsIncludes (jsToLower details) "401" || jsIncludes (jsToLower details) "invalid_api_key") = false →
      jsIncludes (jsToLower details) "timeout" = true →
      summarizeError details = "请求超时") ∧
    ((jsIncludes (jsToLower details) "401" || jsIncludes (jsToLower details) "invalid_api_key") = false →
      jsIncludes (jsToLower details) "timeout" = false →
      summarizeError details = "Codex 进程错误") ∧
    summarizeError "HTTP 401 Timeout" = "鉴权失败：API Key 无效" := by
  refine ⟨?_, ?_, ?_, ?_⟩
  · intro h
    simp only [summarizeError, h, if_true]
  · intro h1 h2
    simp only [summarizeError, h1, h2, Bool.false_eq_true, if_false, if_true]
  · intro h1 h2
    simp only [summarizeError, h1, h2, Bool.false_eq_true, if_false]
  · decide

/-- C9 witness: the classifier theorem applied at concrete inputs. -/
theorem C9_summarizeError_classifier_witness :
    summarizeError "connection TIMEOUT" = "请求超时" ∧
    summarizeError "socket closed" = "Codex 进程错误" := by
  refine ⟨?_, ?_⟩
  · exact (C9_summarizeError_classifier "connection TIMEOUT").2.1 (by decide) (by decide)
  · exact (C9_summarizeError_classifier "socket closed").2.2.1 (by decide) (by decide)

theorem jsOr_some (x : α) (b : Option α) : jsOr (some x) b = some x := rfl

theorem jsOr_none (b : Option α) : jsOr none b = b := rfl

theorem jsOr_none_right (a : Option α) : jsOr a none = a := by
  cases a <;> rfl

theorem lookupA_map_entry (l : List (String × α)) (h : String → α → α) (k : String) :
    lookupA (l.map (fun p => (p.1, h p.1 p.2))) k = (lookupA l k).map (h k) := by
  induction l with
  | nil => rfl
  | cons hd tl ih =>
      obtain ⟨k1, v⟩ := hd
      by_cases hk : k1 = k
      · subst hk
        simp [lookupA]
      · simp [lookupA, hk, ih]

theorem lookupA_updA (l : List (String × α)) (k k' : String) (f : α → α) :
    lookupA (updA l k f) k' = if k' = k then (lookupA l k').map f else lookupA l k' := by
  induction l with
  | nil => simp [updA, lookupA, ite_self]
  | cons hd tl ih =>
      obtain ⟨k1, v⟩ := hd
      by_cases h2 : k1 = k'
      · subst h2
        by_cases h1 : k1 = k <;> simp [updA, lookupA, h1]
      · simp only [updA, List.map_cons, lookupA, h2, if_false]
        exact ih

theorem lookupA_append (l m : List (String × α)) (k : String) :
    lookupA (l ++ m) k = jsOr (lookupA l k) (lookupA m k) := by
  induction l with
  | nil => simp [lookupA, jsOr]
  | cons hd tl ih =>
      obtain ⟨k1, v⟩ := hd
      by_cases h : k1 = k <;> simp [lookupA, h, ih, jsOr]

theorem lookupA_singleton (k0 k : String) (v : α) :
    lookupA [(k0, v)] k = if k0 = k then some v else none := rfl

theorem ensureRun_of_isSome (runs : List (String × RunViewCore)) (tid : String)
    (h : (lookupA runs tid).isSome = true) : ensureRun runs tid = runs := by
  unfold ensureRun
  simp [h]

theorem lookupA_ensureRun_self (runs : List (String × RunViewCore)) (tid : String) :
    lookupA (ensureRun runs tid) tid
      = some ((lookupA runs tid).getD (createEmptyRunView tid)) := by
  unfold ensureRun
  cases h : lookupA runs tid with
  | some r => simp [h]
  | none => simp [h, lookupA_append, lookupA_singleton, jsOr]

theorem lookupA_ensureRun_other (runs : List (String × RunViewCore)) (tid k : String)
    (hk : k ≠ tid) : lookupA (ensureRun runs tid) k = lookupA runs k := by
  unfold ensureRun
  split
  · rfl
  · rw [lookupA_append, lookupA_singleton]
    simp [Ne.symm hk, jsOr_none_right]

/-! step-mutation field facts -/

theorem turnFix_fields (tq : Option String) (st : StepView) :
    (turnFix tq st).kind = st.kind ∧ (turnFix tq st).stream = st.stream ∧
    (turnFix tq st).tsStart = st.tsStart ∧ (turnFix tq st).status = st.status ∧
    (turnFix tq st).tsEnd = st.tsEnd ∧ (turnFix tq st).rawEventIds = st.rawEventIds := by
  unfold turnFix
  split <;> simp

theorem closeFn_fields (keys : List String) (t : String) (ts : Nat) (k : String)
    (st : StepView) :
    (closeFn keys t ts k st).kind = st.kind ∧ (closeFn keys t ts k st).stream = st.stream ∧
    (closeFn keys t ts k st).tsStart = st.tsStart := by
  unfold closeFn
  split <;> simp

theorem startedUpd_fields (item : ItemPayload) (ts : Nat) (eid : String) (st : StepView) :
    (startedUpd item ts eid st).kind = st.kind ∧
    (startedUpd item ts eid st).stream = st.stream := ⟨rfl, rfl⟩

theorem completedUpd_fields (item : ItemPayload) (ts : Nat) (eid : String) (st : StepView) :
    (completedUpd item ts eid st).kind = st.kind ∧
    (completedUpd item ts eid st).stream = st.stream ∧
    (completedUpd item ts eid st).tsStart = st.tsStart := ⟨rfl, rfl, rfl⟩

theorem deltaUpd_fields (d : String) (eid : String) (st : StepView) :
    (deltaUpd d eid st).kind = st.kind ∧
    (deltaUpd d eid st).stream = some ((st.stream.getD "") ++ d) ∧
    (deltaUpd d eid st).tsStart = st.tsStart := ⟨rfl, rfl, rfl⟩

theorem approvalUpd_fields (a : ApprovalView) (eid : String) (st : StepView) :
    (approvalUpd a eid st).kind = st.kind ∧
    (approvalUpd a eid st).stream = st.stream ∧
    (approvalUpd a eid st).tsStart = st.tsStart := ⟨rfl, rfl, rfl⟩

/-! lookup behaviour of the composite state updates -/

theorem closeReasoningSteps_lookup (s : MapperState) (tid t : String) (ts : Nat)
    (k : String) :
    lookupA (closeReasoningSteps s tid t ts).steps k
      = (lookupA s.steps k).map (fun st =>
          match lookupA s.runs tid with
          | none => st
          | some run => closeFn run.stepKeys t ts k st) := by
  unfold closeReasoningSteps
  cases h : lookupA s.runs tid with
  | none => simp [Option.map_id]
  | some run => simp [lookupA_map_entry]

theorem closeReasoningSteps_runs (s : MapperState) (tid t : String) (ts : Nat) :
    (closeReasoningSteps s tid t ts).runs = s.runs := by
  unfold closeReasoningSteps
  cases lookupA s.runs tid <;> rfl

theorem applyStepUpd_lookup (s : MapperState) (key k : String) (f : StepView → StepView) :
    lookupA (applyStepUpd s key f).steps k
      = if k = key then (lookupA s.steps k).map f else lookupA s.steps k := by
  unfold applyStepUpd
  exact lookupA_updA s.steps key k f

theorem applyStepUpd_runs (s : MapperState) (key : String) (f : StepView → StepView) :
    (applyStepUpd s key f).runs = s.runs := rfl

theorem getOrCreateStepSt_lookup_self (s : MapperState) (tid iid : String)
    (kind : StepKind) (tq : Option String) :
    lookupA (getOrCreateStepSt s tid iid kind tq).steps (stepKey tid iid)
      = some (match lookupA s.steps (stepKey tid iid) with
              | some st => turnFix tq st
              | none => newStep tid iid kind tq) := by
  unfold getOrCreateStepSt
  cases h : lookupA s.steps (stepKey tid iid) with
  | some st => simp [h, lookupA_updA]
  | none => simp [h, lookupA_append, lookupA_singleton, jsOr]

theorem getOrCreateStepSt_lookup_other (s : MapperState) (tid iid : String)
    (kind : StepKind) (tq : Option String) (k : String) (hk : k ≠ stepKey tid iid) :
    lookupA (getOrCreateStepSt s tid iid kind tq).steps k = lookupA s.steps k := by
  unfold getOrCreateStepSt
  cases h : lookupA s.steps (stepKey tid iid) with
  | some st => simp [h, lookupA_updA, hk]
  | none => simp [h, lookupA_append, lookupA_singleton, Ne.symm hk, jsOr_none_right]

theorem getOrCreateStepSt_runs_of_found (s : MapperState) (tid iid : String)
    (kind : StepKind) (tq : Option String)
    (h : (lookupA s.steps (stepKey tid iid)).isSome = true) :
    (getOrCreateStepSt s tid iid kind tq).runs = s.runs := by
  unfold getOrCreateStepSt
  cases hh : lookupA s.steps (stepKey tid iid) with
  | some st => simp [hh]
  | none => rw [hh] at h; simp at h

/-! dispatch equations (one per handled event family) -/

theorem dispatch_thread_started (s : MapperState) (e : RawEvent) (tid : String)
    (turnId : Option String) (payload : Option Payload) (h : e.type = "thread/started") :
    dispatchEvent s e tid turnId payload
      = { s with
          runs := updA
            (ensureRun s.runs (((payload.bind (fun x => x.thread)).bind (fun t => t.id)).getD tid))
            (((payload.bind (fun x => x.thread)).bind (fun t => t.id)).getD tid)
            (fun r => { r with createdAt := some e.ts }) } := by
  unfold dispatchEvent
  rw [h]
  rfl

theorem dispatch_turn_started (s : MapperState) (e : RawEvent) (tid : String)
    (turnId : Option String) (payload : Option Payload) (h : e.type = "turn/started") :
    dispatchEvent s e tid turnId payload
      = { s with
          runs := updA s.runs tid (fun r =>
            { r with
              status := some "inProgress"
              meta := some { lastTurnId := jsOr ((payload.bind (fun x => x.turn)).bind (fun t => t.id)) turnId } }) } := by
  unfold dispatchEvent
  rw [h]
  rfl

theorem dispatch_turn_completed (s : MapperState) (e : RawEvent) (tid : String)
    (turnId : Option String) (payload : Option Payload) (h : e.type = "turn/completed") :
    dispatchEvent s e tid turnId payload
      = (if truthyS turnId then
          closeReasoningSteps (turnCompletedRun s tid turnId payload) tid (turnId.getD "") e.ts
        else turnCompletedRun s tid turnId payload) := by
  unfold dispatchEvent
  rw [h]
  rfl

theorem dispatch_started (s : MapperState) (e : RawEvent) (tid : String)
    (turnId : Option String) (payload : Option Payload) (h : e.type = "item/started") :
    dispatchEvent s e tid turnId payload
      = (match payload.bind (fun x => x.item) with
        | none => s
        | some item => startedCase s e tid turnId item) := by
  unfold dispatchEvent
  rw [h]
  rfl

theorem dispatch_completed (s : MapperState) (e : RawEvent) (tid : String)
    (turnId : Option String) (payload : Option Payload) (h : e.type = "item/completed") :
    dispatchEvent s e tid turnId payload
      = (match payload.bind (fun x => x.item) with
        | none => s
        | some item => completedCase s e tid turnId item) := by
  unfold dispatchEvent
  rw [h]
  rfl

theorem dispatch_plan (s : MapperState) (e : RawEvent) (tid : String)
    (turnId : Option String) (payload : Option Payload) (h : e.type = "turn/plan/updated") :
    (dispatchEvent s e tid turnId payload).steps = s.steps := by
  unfold dispatchEvent
  rw [h]
  rfl

theorem dispatch_diff (s : MapperState) (e : RawEvent) (tid : String)
    (turnId : Option String) (payload : Option Payload) (h : e.type = "turn/diff/updated") :
    (dispatchEvent s e tid turnId payload).steps = s.steps := by
  unfold dispatchEvent
  rw [h]
  rfl

theorem dispatch_tokenUsage (s : MapperState) (e : RawEvent) (tid : String)
    (turnId : Option String) (payload : Option Payload)
    (h : e.type = "thread/tokenUsage/updated") :
    (dispatchEvent s e tid turnId payload).steps = s.steps := by
  unfold dispatchEvent
  rw [h]
  rfl

theorem dispatch_delta (s : MapperState) (e : RawEvent) (tid : String)
    (turnId : Option String) (payload : Option Payload) (hd : isDeltaType e.type = true) :
    dispatchEvent s e tid turnId payload
      = (if truthyS (payload.bind (fun x => x.itemId)) then
          applyStepUpd
            (getOrCreateStepSt s tid ((payload.bind (fun x => x.itemId)).getD "")
              (inferKindFromDelta e.type) turnId)
            (stepKey tid ((payload.bind (fun x => x.itemId)).getD ""))
            (deltaUpd ((jsOr (payload.bind (fun x => x.delta)) (payload.bind (fun x => x.text))).getD "") e.id)
        else s) := by
  unfold isDeltaType at hd
  simp only [Bool.or_eq_true, beq_iff_eq] at hd
  rcases hd with ((((h | h) | h) | h) | h) | h <;>
    (unfold dispatchEvent; rw [h]; rfl)

theorem dispatch_approval (s : MapperState) (e : RawEvent) (tid : String)
    (turnId : Option String) (payload : Option Payload)
    (h : e.type = "item/commandExecution/requestApproval" ∨
      e.type = "item/fileChange/requestApproval") :
    dispatchEvent s e tid turnId payload
      = (if truthyS (payload.bind (fun x => x.itemId)) then
          applyStepUpd
            (getOrCreateStepSt s tid ((payload.bind (fun x => x.itemId)).getD "")
              (mapApprovalKind e.type) turnId)
            (stepKey tid ((payload.bind (fun x => x.itemId)).getD ""))
            (approvalUpd (buildApproval e payload) e.id)
        else s) := by
  rcases h with h | h <;> (unfold dispatchEvent; rw [h]; rfl)

theorem dispatch_unknown (s : MapperState) (e : RawEvent) (tid : String)
    (turnId : Option String) (payload : Option Payload) (hk : e.type ∉ knownTypes) :
    dispatchEvent s e tid turnId payload = s := by
  have h1 : ¬ e.type = "thread/started" := fun h => hk (by rw [h]; decide)
  have h2 : ¬ e.type = "turn/started" := fun h => hk (by rw [h]; decide)
  have h3 : ¬ e.type = "turn/completed" := fun h => hk (by rw [h]; decide)
  have h4 : ¬ e.type = "turn/plan/updated" := fun h => hk (by rw [h]; decide)
  have h5 : ¬ e.type = "turn/diff/updated" := fun h => hk (by rw [h]; decide)
  have h6 : ¬ e.type = "thread/tokenUsage/updated" := fun h => hk (by rw [h]; decide)
  have h7 : ¬ e.type = "item/started" := fun h => hk (by rw [h]; decide)
  have h8 : ¬ e.type = "item/completed" := fun h => hk (by rw [h]; decide)
  have hd : ¬ (isDeltaType e.type = true) := by
    intro hdt
    unfold isDeltaType at hdt
    simp only [Bool.or_eq_true, beq_iff_eq] at hdt
    rcases hdt with ((((h | h) | h) | h) | h) | h <;> exact hk (by rw [h]; decide)
  have ha : ¬ (e.type = "item/commandExecution/requestApproval" ∨
      e.type = "item/fileChange/requestApproval") := by
    rintro (h | h) <;> exact hk (by rw [h]; decide)
  unfold dispatchEvent
  rw [if_neg h1, if_neg h2, if_neg h3, if_neg h4, if_neg h5, if_neg h6, if_neg h7,
    if_neg h8, if_neg hd, if_neg ha]

theorem consume_unresolved (s : MapperState) (e : RawEvent)
    (h : resolvedThread e = none) :
    consume s e = (logEvent s e, none) := by
  unfold consume
  rw [h]

theorem consume_empty_thread (s : MapperState) (e : RawEvent)
    (h : resolvedThread e = some "") :
    consume s e = (logEvent s e, none) := by
  unfold consume
  rw [h]
  rfl

theorem consume_resolved (s : MapperState) (e : RawEvent) (tid : String)
    (h : resolvedThread e = some tid) (h2 : ¬ tid = "") :
    consume s e
      = (dispatchEvent (withRun (logEvent s e) tid) e tid (resolvedTurn e) e.payload,
         some (snapshotRun
           (dispatchEvent (withRun (logEvent s e) tid) e tid (resolvedTurn e) e.payload)
           tid)) := by
  unfold consume
  simp only [h]
  rw [if_neg h2]

theorem turnCompletedRun_steps (s : MapperState) (tid : String) (tq : Option String)
    (p : Option Payload) : (turnCompletedRun s tid tq p).steps = s.steps := rfl

theorem turnCompletedRun_rawEvents (s : MapperState) (tid : String) (tq : Option String)
    (p : Option Payload) : (turnCompletedRun s tid tq p).rawEvents = s.rawEvents := rfl

theorem closeReasoningSteps_rawEvents (s : MapperState) (tid t : String) (ts : Nat) :
    (closeReasoningSteps s tid t ts).rawEvents = s.rawEvents := by
  unfold closeReasoningSteps
  cases lookupA s.runs tid <;> rfl

theorem getOrCreateStepSt_rawEvents (s : MapperState) (tid iid : String)
    (kind : StepKind) (tq : Option String) :
    (getOrCreateStepSt s tid iid kind tq).rawEvents = s.rawEvents := by
  unfold getOrCreateStepSt
  cases lookupA s.steps (stepKey tid iid) <;> rfl

theorem applyStepUpd_rawEvents (s : MapperState) (key : String) (f : StepView → StepView) :
    (applyStepUpd s key f).rawEvents = s.rawEvents := rfl

theorem lookupA_ensureRun_mono (runs : List (String × RunViewCore)) (tid k : String)
    (v : RunViewCore) (h : lookupA runs k = some v) :
    lookupA (ensureRun runs tid) k = some v := by
  by_cases hk : k = tid
  · subst hk
    rw [lookupA_ensureRun_self, h]
    rfl
  · rw [lookupA_ensureRun_other _ _ _ hk]
    exact h

theorem not_known_of_negs (t : String)
    (h1 : t ≠ "thread/started") (h2 : t ≠ "turn/started") (h3 : t ≠ "turn/completed")
    (h4 : t ≠ "turn/plan/updated") (h5 : t ≠ "turn/diff/updated")
    (h6 : t ≠ "thread/tokenUsage/updated") (h7 : t ≠ "item/started")
    (h8 : t ≠ "item/completed") (hd : isDeltaType t = false)
    (ha : ¬ (t = "item/commandExecution/requestApproval" ∨
      t = "item/fileChange/requestApproval")) :
    t ∉ knownTypes := by
  intro hm
  simp only [knownTypes, List.mem_cons, List.not_mem_nil, or_false] at hm
  rcases hm with h | h | h | h | h | h | h | h | h | h | h | h | h | h | h | h
  · exact h1 h
  · exact h2 h
  · exact h3 h
  · exact h4 h
  · exact h5 h
  · exact h6 h
  · exact h7 h
  · exact h8 h
  · rw [h] at hd; exact absurd hd (by decide)
  · rw [h] at hd; exact absurd hd (by decide)
  · rw [h] at hd; exact absurd hd (by decide)
  · rw [h] at hd; exact absurd hd (by decide)
  · rw [h] at hd; exact absurd hd (by decide)
  · rw [h] at hd; exact absurd hd (by decide)
  · exact ha (Or.inl h)
  · exact ha (Or.inr h)

theorem startedCase_rawEvents (s : MapperState) (e : RawEvent) (tid : String)
    (tq : Option String) (item : ItemPayload) :
    (startedCase s e tid tq item).rawEvents = s.rawEvents := by
  unfold startedCase
  split
  · simp only [applyStepUpd_rawEvents, getOrCreateStepSt_rawEvents]
    split <;> simp [closeReasoningSteps_rawEvents]
  · rfl

theorem completedCase_rawEvents (s : MapperState) (e : RawEvent) (tid : String)
    (tq : Option String) (item : ItemPayload) :
    (completedCase s e tid tq item).rawEvents = s.rawEvents := by
  unfold completedCase
  split <;> simp [applyStepUpd_rawEvents, getOrCreateStepSt_rawEvents]

theorem dispatchEvent_rawEvents (s : MapperState) (e : RawEvent) (tid : String)
    (tq : Option String) (p : Option Payload) :
    (dispatchEvent s e tid tq p).rawEvents = s.rawEvents := by
  by_cases h1 : e.type = "thread/started"
  · rw [dispatch_thread_started s e tid tq p h1]
  by_cases h2 : e.type = "turn/started"
  · rw [dispatch_turn_started s e tid tq p h2]
  by_cases h3 : e.type = "turn/completed"
  · rw [dispatch_turn_completed s e tid tq p h3]
    split <;> simp [closeReasoningSteps_rawEvents, turnCompletedRun_rawEvents]
  by_cases h4 : e.type = "turn/plan/updated"
  · unfold dispatchEvent
    rw [h4]
    rfl
  by_cases h5 : e.type = "turn/diff/updated"
  · unfold dispatchEvent
    rw [h5]
    rfl
  by_cases h6 : e.type = "thread/tokenUsage/updated"
  · unfold dispatchEvent
    rw [h6]
    rfl
  by_cases h7 : e.type = "item/started"
  · rw [dispatch_started s e tid tq p h7]
    cases p.bind (fun x => x.item) with
    | none => rfl
    | some item => exact startedCase_rawEvents s e tid tq item
  by_cases h8 : e.type = "item/completed"
  · rw [dispatch_completed s e tid tq p h8]
    cases p.bind (fun x => x.item) with
    | none => rfl
    | some item => exact completedCase_rawEvents s e tid tq item
  by_cases hdel : isDeltaType e.type = true
  · rw [dispatch_delta s e tid tq p hdel]
    split <;> simp [applyStepUpd_rawEvents, getOrCreateStepSt_rawEvents]
  by_cases happ : e.type = "item/commandExecution/requestApproval" ∨
      e.type = "item/fileChange/requestApproval"
  · rw [dispatch_approval s e tid tq p happ]
    split <;> simp [applyStepUpd_rawEvents, getOrCreateStepSt_rawEvents]
  · rw [dispatch_unknown s e tid tq p
      (not_known_of_negs e.type h1 h2 h3 h4 h5 h6 h7 h8 (by simpa using hdel) happ)]

/-- an existing step entry after `getOrCreateStep` plus the per-branch step
mutation: untouched under a different key, otherwise `f ∘ turnFix`. -/
theorem step_branch_lookup (s : MapperState) (tid iid : String) (kind : StepKind)
    (tq : Option String) (f : StepView → StepView) (k : String) (st : StepView)
    (h : lookupA s.steps k = some st) :
    ∃ st', lookupA (applyStepUpd (getOrCreateStepSt s tid iid kind tq)
        (stepKey tid iid) f).steps k = some st' ∧
      (st' = st ∨ st' = f (turnFix tq st)) := by
  by_cases hk : k = stepKey tid iid
  · subst hk
    rw [applyStepUpd_lookup]
    simp only [if_pos rfl]
    rw [getOrCreateStepSt_lookup_self, h]
    exact ⟨f (turnFix tq st), rfl, Or.inr rfl⟩
  · rw [applyStepUpd_lookup]
    simp only [hk, if_false]
    rw [getOrCreateStepSt_lookup_other _ _ _ _ _ _ hk]
    exact ⟨st, h, Or.inl rfl⟩

/-- an existing step entry survives the reasoning auto-close with its kind,
stream and tsStart intact. -/
theorem step_lookup_after_close (s : MapperState) (tid t : String) (ts : Nat)
    (k : String) (st : StepView) (h : lookupA s.steps k = some st) :
    ∃ st2, lookupA (closeReasoningSteps s tid t ts).steps k = some st2 ∧
      st2.kind = st.kind ∧ st2.stream = st.stream ∧ st2.tsStart = st.tsStart := by
  rw [closeReasoningSteps_lookup, h]
  cases hr : lookupA s.runs tid with
  | none => exact ⟨st, rfl, rfl, rfl, rfl⟩
  | some run =>
      refine ⟨closeFn run.stepKeys t ts k st, rfl, ?_, ?_, ?_⟩
      · exact (closeFn_fields run.stepKeys t ts k st).1
      · exact (closeFn_fields run.stepKeys t ts k st).2.1
      · exact (closeFn_fields run.stepKeys t ts k st).2.2

theorem string_append_empty (s : String) : s ++ "" = s := by
  cases s with
  | mk data => exact congrArg String.mk (List.append_nil data)

theorem consume_fst_unresolved (s : MapperState) (e : RawEvent)
    (h : resolvedThread e = none) : (consume s e).1 = logEvent s e := by
  rw [consume_unresolved s e h]

theorem consume_fst_empty (s : MapperState) (e : RawEvent)
    (h : resolvedThread e = some "") : (consume s e).1 = logEvent s e := by
  rw [consume_empty_thread s e h]

theorem consume_fst_resolved (s : MapperState) (e : RawEvent) (tid : String)
    (h : resolvedThread e = some tid) (h2 : ¬ tid = "") :
    (consume s e).1
      = dispatchEvent (withRun (logEvent s e) tid) e tid (resolvedTurn e) e.payload := by
  rw [consume_resolved s e tid h h2]

theorem consume_snd_resolved (s : MapperState) (e : RawEvent) (tid : String)
    (h : resolvedThread e = some tid) (h2 : ¬ tid = "") :
    (consume s e).2
      = some (snapshotRun
          (dispatchEvent (withRun (logEvent s e) tid) e tid (resolvedTurn e) e.payload)
          tid) := by
  rw [consume_resolved s e tid h h2]

theorem startedCase_lookup (s : MapperState) (e : RawEvent) (tid : String)
    (tq : Option String) (item : ItemPayload) (k : String) (st : StepView)
    (h : lookupA s.steps k = some st) :
    ∃ st', lookupA (startedCase s e tid tq item).steps k = some st' ∧
      st'.kind = st.kind ∧ st'.stream = st.stream := by
  unfold startedCase
  split
  · have h1 : ∃ st2, lookupA (if item.type ≠ some "reasoning" ∧ truthyS tq = true then
        closeReasoningSteps s tid (tq.getD "") e.ts else s).steps k = some st2 ∧
        st2.kind = st.kind ∧ st2.stream = st.stream := by
      split
      · obtain ⟨st2, h2, hk2, hs2, _⟩ := step_lookup_after_close s tid (tq.getD "") e.ts k st h
        exact ⟨st2, h2, hk2, hs2⟩
      · exact ⟨st, h, rfl, rfl⟩
    obtain ⟨st2, h2, hk2, hs2⟩ := h1
    obtain ⟨st', h', hor⟩ := step_branch_lookup _ tid (item.id.getD "")
      (mapStepKind item.type) tq (startedUpd item e.ts e.id) k st2 h2
    refine ⟨st', h', ?_, ?_⟩
    · rcases hor with rfl | rfl
      · exact hk2
      · exact ((startedUpd_fields item e.ts e.id (turnFix tq st2)).1).trans
          (((turnFix_fields tq st2).1).trans hk2)
    · rcases hor with rfl | rfl
      · exact hs2
      · exact ((startedUpd_fields item e.ts e.id (turnFix tq st2)).2).trans
          (((turnFix_fields tq st2).2.1).trans hs2)
  · exact ⟨st, h, rfl, rfl⟩

theorem completedCase_lookup (s : MapperState) (e : RawEvent) (tid : String)
    (tq : Option String) (item : ItemPayload) (k : String) (st : StepView)
    (h : lookupA s.steps k = some st) :
    ∃ st', lookupA (completedCase s e tid tq item).steps k = some st' ∧
      st'.kind = st.kind ∧ st'.stream = st.stream ∧ st'.tsStart = st.tsStart := by
  unfold completedCase
  split
  · obtain ⟨st', h', hor⟩ := step_branch_lookup s tid (item.id.getD "")
      (mapStepKind item.type) tq (completedUpd item e.ts e.id) k st h
    refine ⟨st', h', ?_, ?_, ?_⟩ <;> rcases hor with rfl | rfl
    · rfl
    · exact ((completedUpd_fields item e.ts e.id (turnFix tq st)).1).trans
        (turnFix_fields tq st).1
    · rfl
    · exact ((completedUpd_fields item e.ts e.id (turnFix tq st)).2.1).trans
        (turnFix_fields tq st).2.1
    · rfl
    · exact ((completedUpd_fields item e.ts e.id (turnFix tq st)).2.2).trans
        (turnFix_fields tq st).2.2.1
  · exact ⟨st, h, rfl, rfl, rfl⟩

/-- C4 counterexample: step `thr1:i1` is terminal (`completed`, `tsStart = 1`)
after S4, yet consuming a further `item/started` RawEvent for the same itemId
at ts 9 overwrites `tsStart` to 9 (and reopens the step), so a later event
does change `tsStart` of a terminal step. -/
theorem C4_counterexample :
    (lookupA mapperAfterComplete.steps (stepKey "thr1" "i1")).map
      (fun st => (st.status, st.tsStart)) = some (.completed, some 1) ∧
    (lookupA ((consume mapperAfterComplete evCmdRestarted).1).steps (stepKey "thr1" "i1")).map
      (fun st => (st.status, st.tsStart)) = some (.inProgress, some 9) := by
  decide

/-- C5 counterexample: replaying the terminal `item/completed` for item `i1`
does not reproduce the same RunView — the replay appends the event id `e2` a
second time to the step's `rawEventIds`, so the two snapshots differ. -/
theorem C5_counterexample :
    (consume mapperAfterComplete evCmdCompleted).2 ≠ (consume mapperAfterStart evCmdCompleted).2 ∧
    ((consume mapperAfterComplete evCmdCompleted).2.map
      (fun r => r.steps.map (fun st => st.rawEventIds))) = some [["e1", "e2", "e2"]] ∧
    ((consume mapperAfterStart evCmdCompleted).2.map
      (fun r => r.steps.map (fun st => st.rawEventIds))) = some [["e1", "e2"]] := by
  decide

/-- C4 (amended): once a step is terminal, consuming any further RawEvent
never changes its `kind` and never shrinks its `stream`; `tsStart` is
preserved by every event except an `item/started` (which may reopen the step
and overwrite `tsStart`, as the counterexample shows). -/
theorem C4_terminal_step_stability (s : MapperState) (e : RawEvent) (k : String)
    (st : StepView)
    (hterm : st.status = .completed ∨ st.status = .failed ∨ st.status = .declined)
    (hlk : lookupA s.steps k = some st) :
    ∃ st', lookupA (consume s e).1.steps k = some st' ∧
      st'.kind = st.kind ∧
      (∃ suf, st'.stream.getD "" = (st.stream.getD "") ++ suf) ∧
      (e.type ≠ "item/started" → st'.tsStart = st.tsStart) := by
  have hnil : ∀ q : Option String, q.getD "" = q.getD "" ++ "" :=
    fun q => (string_append_empty _).symm
  cases hres : resolvedThread e with
  | none =>
      rw [consume_fst_unresolved s e hres]
      exact ⟨st, hlk, rfl, ⟨"", hnil _⟩, fun _ => rfl⟩
  | some tid =>
      by_cases htid : tid = ""
      · subst htid
        rw [consume_fst_empty s e hres]
        exact ⟨st, hlk, rfl, ⟨"", hnil _⟩, fun _ => rfl⟩
      · rw [consume_fst_resolved s e tid hres htid]
        have hlk0 : lookupA (withRun (logEvent s e) tid).steps k = some st := hlk
        by_cases h1 : e.type = "thread/started"
        · rw [dispatch_thread_started _ e tid _ _ h1]
          exact ⟨st, hlk0, rfl, ⟨"", hnil _⟩, fun _ => rfl⟩
        by_cases h2 : e.type = "turn/started"
        · rw [dispatch_turn_started _ e tid _ _ h2]
          exact ⟨st, hlk0, rfl, ⟨"", hnil _⟩, fun _ => rfl⟩
        by_cases h3 : e.type = "turn/completed"
        · rw [dispatch_turn_completed _ e tid _ _ h3]
          by_cases hcl : truthyS (resolvedTurn e) = true
          · rw [if_pos hcl]
            obtain ⟨st2, h2', hk2, hsm2, hts2⟩ :=
              step_lookup_after_close (turnCompletedRun (withRun (logEvent s e) tid) tid
                (resolvedTurn e) e.payload) tid ((resolvedTurn e).getD "") e.ts k st hlk0
            exact ⟨st2, h2', hk2, ⟨"", by rw [hsm2]; exact hnil _⟩, fun _ => hts2⟩
          · rw [if_neg hcl]
            exact ⟨st, hlk0, rfl, ⟨"", hnil _⟩, fun _ => rfl⟩
        by_cases h4 : e.type = "turn/plan/updated"
        · refine ⟨st, ?_, rfl, ⟨"", hnil _⟩, fun _ => rfl⟩
          rw [dispatch_plan _ e tid _ _ h4]
          exact hlk0
        by_cases h5 : e.type = "turn/diff/updated"
        · refine ⟨st, ?_, rfl, ⟨"", hnil _⟩, fun _ => rfl⟩
          rw [dispatch_diff _ e tid _ _ h5]
          exact hlk0
        by_cases h6 : e.type = "thread/tokenUsage/updated"
        · refine ⟨st, ?_, rfl, ⟨"", hnil _⟩, fun _ => rfl⟩
          rw [dispatch_tokenUsage _ e tid _ _ h6]
          exact hlk0
        by_cases h7 : e.type = "item/started"
        · rw [dispatch_started _ e tid _ _ h7]
          cases e.payload.bind (fun x => x.item) with
          | none => exact ⟨st, hlk0, rfl, ⟨"", hnil _⟩, fun hne => absurd h7 hne⟩
          | some item =>
              obtain ⟨st', h', hk', hsm'⟩ :=
                startedCase_lookup (withRun (logEvent s e) tid) e tid (resolvedTurn e)
                  item k st hlk0
              exact ⟨st', h', hk', ⟨"", by rw [hsm']; exact hnil _⟩,
                fun hne => absurd h7 hne⟩
        by_cases h8 : e.type = "item/completed"
        · rw [dispatch_completed _ e tid _ _ h8]
          cases e.payload.bind (fun x => x.item) with
          | none => exact ⟨st, hlk0, rfl, ⟨"", hnil _⟩, fun _ => rfl⟩
          | some item =>
              obtain ⟨st', h', hk', hsm', hts'⟩ :=
                completedCase_lookup (withRun (logEvent s e) tid) e tid (resolvedTurn e)
                  item k st hlk0
              exact ⟨st', h', hk', ⟨"", by rw [hsm']; exact hnil _⟩, fun _ => hts'⟩
        by_cases hdel : isDeltaType e.type = true
        · rw [dispatch_delta _ e tid _ _ hdel]
          by_cases hti : truthyS (e.payload.bind (fun x => x.itemId)) = true
          · rw [if_pos hti]
            obtain ⟨st', h', hor⟩ := step_branch_lookup (withRun (logEvent s e) tid) tid
              ((e.payload.bind (fun x => x.itemId)).getD "") (inferKindFromDelta e.type)
              (resolvedTurn e)
              (deltaUpd ((jsOr (e.payload.bind (fun x => x.delta))
                (e.payload.bind (fun x => x.text))).getD "") e.id) k st hlk0
            refine ⟨st', h', ?_, ?_, ?_⟩
            · rcases hor with rfl | rfl
              · rfl
              · exact ((deltaUpd_fields _ _ _).1).trans (turnFix_fields _ _).1
            · rcases hor with rfl | rfl
              · exact ⟨"", hnil _⟩
              · refine ⟨(jsOr (e.payload.bind (fun x => x.delta))
                  (e.payload.bind (fun x => x.text))).getD "", ?_⟩
                simp only [deltaUpd, Option.getD_some, (turnFix_fields (resolvedTurn e) st).2.1]
            · rcases hor with rfl | rfl
              · exact fun _ => rfl
              · exact fun _ => ((deltaUpd_fields _ _ _).2.2).trans (turnFix_fields _ _).2.2.1
          · rw [if_neg hti]
            exact ⟨st, hlk0, rfl, ⟨"", hnil _⟩, fun _ => rfl⟩
        by_cases happ : e.type = "item/commandExecution/requestApproval" ∨
            e.type = "item/fileChange/requestApproval"
        · rw [dispatch_approval _ e tid _ _ happ]
          by_cases hti : truthyS (e.payload.bind (fun x => x.itemId)) = true
          · rw [if_pos hti]
            obtain ⟨st', h', hor⟩ := step_branch_lookup (withRun (logEvent s e) tid) tid
              ((e.payload.bind (fun x => x.itemId)).getD "") (mapApprovalKind e.type)
              (resolvedTurn e) (approvalUpd (buildApproval e e.payload) e.id) k st hlk0
            refine ⟨st', h', ?_, ?_, ?_⟩
            · rcases hor with rfl | rfl
              · rfl
              · exact ((approvalUpd_fields _ _ _).1).trans (turnFix_fields _ _).1
            · rcases hor with rfl | rfl
              · exact ⟨"", hnil _⟩
              · refine ⟨"", ?_⟩
                rw [((approvalUpd_fields _ _ _).2.1).trans (turnFix_fields _ _).2.1]
                exact hnil _
            · rcases hor with rfl | rfl
              · exact fun _ => rfl
              · exact fun _ => ((approvalUpd_fields _ _ _).2.2).trans (turnFix_fields _ _).2.2.1
          · rw [if_neg hti]
            exact ⟨st, hlk0, rfl, ⟨"", hnil _⟩, fun _ => rfl⟩
        · rw [dispatch_unknown _ e tid _ _
            (not_known_of_negs e.type h1 h2 h3 h4 h5 h6 h7 h8 (by simpa using hdel) happ)]
          exact ⟨st, hlk0, rfl, ⟨"", hnil _⟩, fun _ => rfl⟩

/-- C4 witness: the stability theorem applied to the concrete terminal step
`thr1:i1` and the replayed `item/completed` event. -/
theorem C4_terminal_step_stability_witness :
    ∃ st', lookupA (consume mapperAfterComplete evCmdCompleted).1.steps
        (stepKey "thr1" "i1") = some st' ∧
      st'.kind = StepKind.commandExecution ∧ st'.tsStart = some 1 := by
  have hlk : lookupA mapperAfterComplete.steps (stepKey "thr1" "i1")
      = some ((lookupA mapperAfterComplete.steps (stepKey "thr1" "i1")).get (by decide)) := by
    decide
  obtain ⟨st', h', hk', _, hts'⟩ :=
    C4_terminal_step_stability mapperAfterComplete evCmdCompleted (stepKey "thr1" "i1")
      ((lookupA mapperAfterComplete.steps (stepKey "thr1" "i1")).get (by decide))
      (by decide) hlk
  refine ⟨st', h', ?_, ?_⟩
  · rw [hk']
    decide
  · rw [hts' (by decide)]
    decide

/-- C6 counterexample: an event of unknown type addressed to an existing
thread touches no RunView (runs and steps are unchanged, only the raw log
grows), yet `consume` returns the RunView rather than `undefined`. -/
theorem C6_counterexample :
    ((consume mapperAfterThread evBogus).2).isSome = true ∧
    (consume mapperAfterThread evBogus).1.runs = mapperAfterThread.runs ∧
    (consume mapperAfterThread evBogus).1.steps = mapperAfterThread.steps ∧
    (consume mapperAfterThread evBogus).1.rawEvents
      = mapperAfterThread.rawEvents ++ [evBogus] := by
  decide

theorem filterMap_congr_fun (l : List α) (f g : α → Option β) (h : ∀ a, f a = g a) :
    l.filterMap f = l.filterMap g := by
  induction l with
  | nil => rfl
  | cons hd tl ih => simp [List.filterMap_cons, h hd, ih]

theorem turnFix_noop_of (tq : Option String) (z : StepView)
    (h : ¬ (!truthyS z.turnId && truthyS tq) = true) : turnFix tq z = z := by
  unfold turnFix
  rw [if_neg h]

theorem turnFix_turnId_stable (tq : Option String) (x : StepView) :
    ¬ (!truthyS (turnFix tq x).turnId && truthyS tq) = true := by
  unfold turnFix
  by_cases h : (!truthyS x.turnId && truthyS tq) = true
  · rw [if_pos h]
    cases htq : truthyS tq with
    | false => rw [htq] at h; simp at h
    | true => decide
  · rw [if_neg h]
    exact h

theorem turnFix_completed_turnFix (tq : Option String) (item : ItemPayload)
    (ts : Nat) (eid : String) (x : StepView) :
    turnFix tq (completedUpd item ts eid (turnFix tq x))
      = completedUpd item ts eid (turnFix tq x) := by
  apply turnFix_noop_of
  show ¬ (!truthyS (turnFix tq x).turnId && truthyS tq) = true
  exact turnFix_turnId_stable tq x

theorem turnFix_completed_newStep (tq : Option String) (item : ItemPayload)
    (ts : Nat) (eid : String) (tid iid : String) (kind : StepKind) :
    turnFix tq (completedUpd item ts eid (newStep tid iid kind tq))
      = completedUpd item ts eid (newStep tid iid kind tq) := by
  apply turnFix_noop_of
  show ¬ (!truthyS tq && truthyS tq) = true
  cases htq : truthyS tq <;> simp

theorem stripStep_completed_twice (item : ItemPayload) (ts : Nat) (eid : String)
    (y : StepView) :
    stripStep (completedUpd item ts eid (completedUpd item ts eid y))
      = stripStep (completedUpd item ts eid y) := rfl

/-- the shape of one `consume` step on a terminal `item/completed` event with
a resolvable thread and a truthy item id. -/
theorem consume_completed_shape (s : MapperState) (e : RawEvent) (tid : String)
    (item : ItemPayload)
    (htype : e.type = "item/completed") (hres : resolvedThread e = some tid)
    (htid : ¬ tid = "") (hitem : e.payload.bind (fun p => p.item) = some item)
    (hid : truthyS item.id = true) :
    (consume s e).1
      = applyStepUpd
          (getOrCreateStepSt (withRun (logEvent s e) tid) tid (item.id.getD "")
            (mapStepKind item.type) (resolvedTurn e))
          (stepKey tid (item.id.getD "")) (completedUpd item e.ts e.id) := by
  rw [consume_fst_resolved s e tid hres htid, dispatch_completed _ e tid _ _ htype, hitem]
  show completedCase _ e tid (resolvedTurn e) item = _
  unfold completedCase
  rw [if_pos hid]

theorem snapshotRun_of_some (s : MapperState) (tid : String) (r : RunViewCore)
    (h : lookupA s.runs tid = some r) :
    snapshotRun s tid
      = { runId := r.runId
          createdAt := r.createdAt
          status := r.status
          meta := r.meta
          plan := r.plan
          diff := r.diff
          tokenUsage := r.tokenUsage
          steps := r.stepKeys.filterMap (lookupA s.steps) } := by
  unfold snapshotRun
  rw [h]

/-- replaying the `item/completed` mutation on a state whose step entry is
already the updated value changes the RunView snapshot only in the step's
`rawEventIds`. -/
theorem snapshot_strip_replay (S1 : MapperState) (e : RawEvent) (tid iid : String)
    (item : ItemPayload) (tq : Option String) (kind : StepKind) (FX : StepView)
    (hlk1 : lookupA S1.steps (stepKey tid iid) = some FX)
    (hstable : turnFix tq FX = FX)
    (hstrip : stripStep (completedUpd item e.ts e.id FX) = stripStep FX)
    (hrs : (lookupA S1.runs tid).isSome = true) :
    stripRV (snapshotRun
      (applyStepUpd (getOrCreateStepSt (withRun (logEvent S1 e) tid) tid iid kind tq)
        (stepKey tid iid) (completedUpd item e.ts e.id)) tid)
      = stripRV (snapshotRun S1 tid) := by
  have hfound : (lookupA (withRun (logEvent S1 e) tid).steps (stepKey tid iid)).isSome = true := by
    rw [show (withRun (logEvent S1 e) tid).steps = S1.steps from rfl, hlk1]
    rfl
  have hfr : (applyStepUpd (getOrCreateStepSt (withRun (logEvent S1 e) tid) tid iid kind tq)
      (stepKey tid iid) (completedUpd item e.ts e.id)).runs = S1.runs := by
    show (getOrCreateStepSt (withRun (logEvent S1 e) tid) tid iid kind tq).runs = S1.runs
    rw [getOrCreateStepSt_runs_of_found _ _ _ _ _ hfound]
    exact ensureRun_of_isSome _ _ hrs
  have hsteps : ∀ k, lookupA (applyStepUpd (getOrCreateStepSt (withRun (logEvent S1 e) tid)
        tid iid kind tq) (stepKey tid iid) (completedUpd item e.ts e.id)).steps k
      = (if k = stepKey tid iid then some (completedUpd item e.ts e.id FX)
         else lookupA S1.steps k) := by
    intro k
    rw [applyStepUpd_lookup]
    by_cases hk : k = stepKey tid iid
    · subst hk
      rw [if_pos rfl, if_pos rfl, getOrCreateStepSt_lookup_self,
        show lookupA (withRun (logEvent S1 e) tid).steps (stepKey tid iid) = some FX from hlk1]
      show some (completedUpd item e.ts e.id (turnFix tq FX)) = _
      rw [hstable]
    · rw [if_neg hk, if_neg hk, getOrCreateStepSt_lookup_other _ _ _ _ _ _ hk]
      rfl
  cases hr : lookupA S1.runs tid with
  | none => rw [hr] at hrs; simp at hrs
  | some r =>
      have hfinal : lookupA (applyStepUpd (getOrCreateStepSt (withRun (logEvent S1 e) tid)
          tid iid kind tq) (stepKey tid iid) (completedUpd item e.ts e.id)).runs tid
          = some r := by
        rw [hfr]
        exact hr
      rw [snapshotRun_of_some _ tid r hfinal, snapshotRun_of_some S1 tid r hr]
      have hlist : (r.stepKeys.filterMap (lookupA (applyStepUpd (getOrCreateStepSt
            (withRun (logEvent S1 e) tid) tid iid kind tq) (stepKey tid iid)
            (completedUpd item e.ts e.id)).steps)).map stripStep
          = (r.stepKeys.filterMap (lookupA S1.steps)).map stripStep := by
        rw [List.map_filterMap, List.map_filterMap]
        apply filterMap_congr_fun
        intro k
        rw [hsteps k]
        by_cases hk : k = stepKey tid iid
        · rw [if_pos hk, hk, hlk1]
          show some (stripStep (completedUpd item e.ts e.id FX)) = some (stripStep FX)
          rw [hstrip]
        · rw [if_neg hk]
      simp only [stripRV]
      rw [hlist]

theorem getOrCreateStepSt_runs_lookup_isSome (s : MapperState) (tid iid : String)
    (kind : StepKind) (tq : Option String)
    (h : (lookupA s.runs tid).isSome = true) :
    (lookupA (getOrCreateStepSt s tid iid kind tq).runs tid).isSome = true := by
  unfold getOrCreateStepSt
  cases hS : lookupA s.steps (stepKey tid iid) with
  | some st => exact h
  | none =>
      show (lookupA (updA (ensureRun s.runs tid) tid
        (fun r => { r with stepKeys := r.stepKeys ++ [stepKey tid iid] })) tid).isSome = true
      rw [lookupA_updA, if_pos rfl, lookupA_ensureRun_self]
      rfl

/-- C5 (amended): replaying a terminal `item/completed` for the same itemId
yields the same RunView up to the step's `rawEventIds` list — every field of
the run and of every step except `rawEventIds` is reproduced exactly (the
counterexample shows `rawEventIds` itself gains a duplicate entry, so the
RunViews are not equal on the nose). -/
theorem C5_completed_replay (s : MapperState) (e : RawEvent) (tid : String)
    (item : ItemPayload)
    (htype : e.type = "item/completed")
    (hres : resolvedThread e = some tid) (htid : ¬ tid = "")
    (hitem : e.payload.bind (fun p => p.item) = some item)
    (hid : truthyS item.id = true) :
    ((consume (consume s e).1 e).2).map stripRV = ((consume s e).2).map stripRV := by
  have hshape1 := consume_completed_shape s e tid item htype hres htid hitem hid
  have hshape2 := consume_completed_shape (consume s e).1 e tid item htype hres htid hitem hid
  have hFX : ∃ FX, lookupA (consume s e).1.steps (stepKey tid (item.id.getD "")) = some FX ∧
      turnFix (resolvedTurn e) FX = FX ∧
      stripStep (completedUpd item e.ts e.id FX) = stripStep FX := by
    cases hS0 : lookupA (withRun (logEvent s e) tid).steps (stepKey tid (item.id.getD "")) with
    | some st0 =>
        refine ⟨completedUpd item e.ts e.id (turnFix (resolvedTurn e) st0), ?_,
          turnFix_completed_turnFix (resolvedTurn e) item e.ts e.id st0,
          stripStep_completed_twice item e.ts e.id (turnFix (resolvedTurn e) st0)⟩
        rw [hshape1, applyStepUpd_lookup, if_pos rfl, getOrCreateStepSt_lookup_self, hS0]
        rfl
    | none =>
        refine ⟨completedUpd item e.ts e.id (newStep tid (item.id.getD "")
            (mapStepKind item.type) (resolvedTurn e)), ?_,
          turnFix_completed_newStep (resolvedTurn e) item e.ts e.id tid (item.id.getD "")
            (mapStepKind item.type),
          stripStep_completed_twice item e.ts e.id _⟩
        rw [hshape1, applyStepUpd_lookup, if_pos rfl, getOrCreateStepSt_lookup_self, hS0]
        rfl
  obtain ⟨FX, hlk1, hstable, hstrip⟩ := hFX
  have hrs : (lookupA (consume s e).1.runs tid).isSome = true := by
    rw [hshape1]
    apply getOrCreateStepSt_runs_lookup_isSome
    show (lookupA (ensureRun s.runs tid) tid).isSome = true
    rw [lookupA_ensureRun_self]
    rfl
  rw [consume_snd_resolved (consume s e).1 e tid hres htid,
      consume_snd_resolved s e tid hres htid]
  have hd1 : dispatchEvent (withRun (logEvent s e) tid) e tid (resolvedTurn e) e.payload
      = (consume s e).1 := (consume_fst_resolved s e tid hres htid).symm
  have hd2 : dispatchEvent (withRun (logEvent (consume s e).1 e) tid) e tid
        (resolvedTurn e) e.payload
      = applyStepUpd (getOrCreateStepSt (withRun (logEvent (consume s e).1 e) tid) tid
          (item.id.getD "") (mapStepKind item.type) (resolvedTurn e))
          (stepKey tid (item.id.getD "")) (completedUpd item e.ts e.id) :=
    (consume_fst_resolved (consume s e).1 e tid hres htid).symm.trans hshape2
  rw [hd1, hd2]
  show some (stripRV (snapshotRun _ tid)) = some (stripRV (snapshotRun (consume s e).1 tid))
  exact congrArg some (snapshot_strip_replay (consume s e).1 e tid (item.id.getD "") item
    (resolvedTurn e) (mapStepKind item.type) FX hlk1 hstable hstrip hrs)

/-- C5 witness: the replay lemma at the S4 scenario — replaying `e2` on top of
the completed state reproduces the first snapshot up to `rawEventIds`. -/
theorem C5_completed_replay_witness :
    ((consume mapperAfterComplete evCmdCompleted).2).map stripRV
      = ((consume mapperAfterStart evCmdCompleted).2).map stripRV := by
  have h := C5_completed_replay mapperAfterStart evCmdCompleted "thr1"
    ({ id := some "i1", type := some "commandExecution", status := some "completed",
       aggregatedOutput := some "ok", exitCode := some 0 })
    rfl (by decide) (by decide) rfl (by decide)
  exact h

/-- C6 (amended): `consume` returns a RunView exactly when a truthy threadId
resolves (creating the run if absent — so an untouched, possibly fresh run is
returned even for events the switch ignores), and `undefined` only when no
truthy threadId resolves; an unknown event type changes no step and loses no
existing run, only the raw log grows. -/
theorem C6_consume_return (s : MapperState) (e : RawEvent) :
    ((consume s e).2.isSome = truthyS (resolvedThread e)) ∧
    ((consume s e).1.rawEvents = s.rawEvents ++ [e]) ∧
    (e.type ∉ knownTypes →
      (consume s e).1.steps = s.steps ∧
      ∀ k v, lookupA s.runs k = some v → lookupA (consume s e).1.runs k = some v) := by
  cases hres : resolvedThread e with
  | none =>
      rw [consume_unresolved s e hres]
      exact ⟨rfl, rfl, fun _ => ⟨rfl, fun k v h => h⟩⟩
  | some tid =>
      by_cases htid : tid = ""
      · subst htid
        rw [consume_empty_thread s e hres]
        exact ⟨rfl, rfl, fun _ => ⟨rfl, fun k v h => h⟩⟩
      · refine ⟨?_, ?_, ?_⟩
        · rw [consume_snd_resolved s e tid hres htid]
          exact (bne_iff_ne.mpr htid).symm
        · rw [consume_fst_resolved s e tid hres htid, dispatchEvent_rawEvents]
          rfl
        · intro hk
          rw [consume_fst_resolved s e tid hres htid, dispatch_unknown _ e tid _ _ hk]
          exact ⟨rfl, fun k v hv => lookupA_ensureRun_mono s.runs tid k v hv⟩

/-- C6 witness: the return-value characterization applied to a concrete
resolvable and a concrete unresolvable event. -/
theorem C6_consume_return_witness :
    (consume mapperAfterThread evBogus).2.isSome = true ∧
    (consume emptyMapper { id := "n1", ts := 0, type := "item/started" }).2 = none := by
  constructor
  · rw [(C6_consume_return mapperAfterThread evBogus).1]
    decide
  · have h := (C6_consume_return emptyMapper { id := "n1", ts := 0, type := "item/started" }).1
    rw [show truthyS (resolvedThread { id := "n1", ts := 0, type := "item/started" }) = false
      from by decide] at h
    exact Option.not_isSome_iff_eq_none.mp (by rw [h]; decide)

/-- C7: when the mapper consumes an `item/started` event whose item type is
not reasoning (with a truthy thread, turn and item id), every other step of
the same turn that is reasoning and in progress — registered in the run —
transitions to completed with `tsEnd` equal to the event's ts, while the
started step itself becomes inProgress with `tsStart` equal to that ts. -/
theorem C7_reasoning_autoclose (s : MapperState) (e : RawEvent) (tid t iid : String)
    (item : ItemPayload) (run : RunViewCore)
    (htype : e.type = "item/started")
    (hres : resolvedThread e = some tid) (htid : ¬ tid = "")
    (hturn : resolvedTurn e = some t) (ht : t ≠ "")
    (hitem : e.payload.bind (fun p => p.item) = some item)
    (hid : item.id = some iid) (hiid : iid ≠ "")
    (hnr : item.type ≠ some "reasoning")
    (hrun : lookupA s.runs tid = some run) :
    (∀ k st, lookupA s.steps k = some st → k ∈ run.stepKeys →
      st.turnId = some t → st.kind = .reasoning → st.status = .inProgress →
      ¬ k = stepKey tid iid →
      lookupA (consume s e).1.steps k
        = some { st with status := .completed, tsEnd := some e.ts }) ∧
    (∃ st', lookupA (consume s e).1.steps (stepKey tid iid) = some st' ∧
      st'.status = .inProgress ∧ st'.tsStart = some e.ts) := by
  have htr : truthyS item.id = true := by
    rw [hid]
    exact bne_iff_ne.mpr hiid
  have hcond : item.type ≠ some "reasoning" ∧ truthyS (resolvedTurn e) = true :=
    ⟨hnr, by rw [hturn]; exact bne_iff_ne.mpr ht⟩
  have hrun0 : lookupA (withRun (logEvent s e) tid).runs tid = some run := by
    show lookupA (ensureRun s.runs tid) tid = some run
    exact lookupA_ensureRun_mono s.runs tid tid run hrun
  have hstep : (consume s e).1
      = applyStepUpd
          (getOrCreateStepSt
            (closeReasoningSteps (withRun (logEvent s e) tid) tid t e.ts)
            tid iid (mapStepKind item.type) (resolvedTurn e))
          (stepKey tid iid) (startedUpd item e.ts e.id) := by
    rw [consume_fst_resolved s e tid hres htid, dispatch_started _ e tid _ _ htype, hitem]
    show startedCase _ e tid (resolvedTurn e) item = _
    unfold startedCase
    rw [if_pos htr, if_pos hcond, hid, hturn]
    rfl
  constructor
  · intro k st hlkst hkmem hturnId hkind hstatus hkey
    have hlkst0 : lookupA (withRun (logEvent s e) tid).steps k = some st := hlkst
    rw [hstep, applyStepUpd_lookup, if_neg hkey,
      getOrCreateStepSt_lookup_other _ _ _ _ _ _ hkey,
      closeReasoningSteps_lookup, hlkst0, hrun0]
    show some (closeFn run.stepKeys t e.ts k st) = _
    unfold closeFn
    rw [if_pos ⟨hkmem, hturnId, hkind, hstatus⟩]
  · rw [hstep, applyStepUpd_lookup, if_pos rfl, getOrCreateStepSt_lookup_self]
    exact ⟨_, rfl, rfl, rfl⟩

/-- C7 witness: scenario S5 — feed `item/started i2 reasoning` then
`item/started i3 commandExecution` in turn u1; step i2 ends completed with
tsEnd 9 and step i3 is inProgress with tsStart 9. -/
theorem C7_reasoning_autoclose_witness :
    lookupA (consume mapperS5 evCmdStartedS5).1.steps (stepKey "thr1" "i2")
      = some { (lookupA mapperS5.steps (stepKey "thr1" "i2")).get (by decide) with
               status := .completed, tsEnd := some 9 } ∧
    (∃ st', lookupA (consume mapperS5 evCmdStartedS5).1.steps (stepKey "thr1" "i3")
      = some st' ∧ st'.status = .inProgress ∧ st'.tsStart = some 9) := by
  have h := C7_reasoning_autoclose mapperS5 evCmdStartedS5 "thr1" "u1" "i3"
    ({ id := some "i3", type := some "commandExecution", command := some "ls",
       cwd := some "/" })
    ((lookupA mapperS5.runs "thr1").get (by decide))
    rfl (by decide) (by decide) (by decide) (by decide) (by decide) rfl
    (by decide) (by decide) (by decide)
  refine ⟨?_, h.2⟩
  exact h.1 (stepKey "thr1" "i2")
    ((lookupA mapperS5.steps (stepKey "thr1" "i2")).get (by decide))
    (by decide) (by decide) (by decide) (by decide) (by decide) (by decide)

/-! ## Broker and supervisor lemmas -/

theorem lookupA_removeA_self (l : List (String × α)) (k : String) :
    lookupA (removeA l k) k = none := by
  induction l with
  | nil => rfl
  | cons hd tl ih =>
      obtain ⟨k1, v⟩ := hd
      by_cases h : k1 = k
      · simpa [removeA, List.filter_cons, h] using ih
      · simpa [removeA, List.filter_cons, lookupA, h] using ih

theorem gwStep_timerFires (cfg : DefaultAction) (g : GatewayState) (aid : String)
    (alive : Bool) :
    gwStep cfg g (.timerFires aid alive)
      = if (lookupA g.pendingApprovals aid).elim false (fun p => p.timerActive) then
          handleApprovalTimeout cfg g aid alive
        else (g, []) := rfl

theorem gwStep_clientRespond (cfg : DefaultAction) (g : GatewayState) (sid : String)
    (payload : RespondPayload) (alive : Bool) :
    gwStep cfg g (.clientRespond sid payload alive)
      = handleApprovalResponse g sid payload alive := rfl

theorem handleApprovalTimeout_some (cfg : DefaultAction) (g : GatewayState)
    (aid : String) (alive : Bool) (pending : PendingApprovalE)
    (hlk : lookupA g.pendingApprovals aid = some pending) :
    handleApprovalTimeout cfg g aid alive
      = ({ pendingApprovals := removeA g.pendingApprovals aid },
         if alive then
           [respondToApproval pending.requestId
             { decision := some (defaultActionStr cfg) }]
         else []) := by
  unfold handleApprovalTimeout
  rw [hlk]

theorem handleApprovalResponse_some (g : GatewayState) (sid : String)
    (payload : RespondPayload) (alive : Bool) (pending : PendingApprovalE)
    (hlk : lookupA g.pendingApprovals payload.approvalId = some pending) :
    handleApprovalResponse g sid payload alive
      = if pending.sessionId ≠ sid then (g, [])
        else if alive then
          ({ pendingApprovals := removeA (updA g.pendingApprovals payload.approvalId
              (fun p => { p with timerActive := false })) payload.approvalId },
           [respondToApproval pending.requestId
             { decision := payload.decision, acceptSettings := payload.acceptSettings }])
        else
          ({ pendingApprovals := updA g.pendingApprovals payload.approvalId
              (fun p => { p with timerActive := false }) }, []) := by
  unfold handleApprovalResponse
  rw [hlk]

theorem handleApprovalResponse_none (g : GatewayState) (sid : String)
    (payload : RespondPayload) (alive : Bool)
    (hlk : lookupA g.pendingApprovals payload.approvalId = none) :
    handleApprovalResponse g sid payload alive = (g, []) := by
  unfold handleApprovalResponse
  rw [hlk]

theorem any_eq_filter_ne (l : List (Nat × Nat)) (id : Nat) :
    (l.filter (fun p => p.1 != id)).any (fun p => p.1 == id) = false := by
  induction l with
  | nil => rfl
  | cons hd tl ih =>
      by_cases hh : hd.1 = id <;>
        simp [List.filter_cons, List.any_cons, hh, ih]

/-- a broker state with a single pending approval, used as the concrete
scenario for the broker claims. -/
def c2Pending : PendingApprovalE :=
  { requestId := "7"
    sessionId := "s1"
    userId := "u1"
    createdAt := 0
    timerActive := true }

def c2State : GatewayState :=
  { pendingApprovals := [("a1", c2Pending)] }

/-- C2 counterexample: the client answers a pending approval after its
session died. The handler clears the timer and returns before deleting the
entry and before sending anything, so no JSON-RPC Response is ever sent for
the agent's rpcId and the entry survives its deadline forever: the later
timer firing is disarmed by the cleared flag whether or not the session is
back. This contradicts the claim that exactly one Response is eventually
sent and the entry removed. -/
theorem C2_counterexample :
    (gwStep .decline c2State (.clientRespond "s1"
        { approvalId := "a1", decision := some "accept" } false)).2 = [] ∧
    lookupA (gwStep .decline c2State (.clientRespond "s1"
        { approvalId := "a1", decision := some "accept" } false)).1.pendingApprovals "a1"
      = some { c2Pending with timerActive := false } ∧
    gwStep .decline (gwStep .decline c2State (.clientRespond "s1"
        { approvalId := "a1", decision := some "accept" } false)).1 (.timerFires "a1" true)
      = ((gwStep .decline c2State (.clientRespond "s1"
          { approvalId := "a1", decision := some "accept" } false)).1, []) ∧
    gwStep .decline (gwStep .decline c2State (.clientRespond "s1"
        { approvalId := "a1", decision := some "accept" } false)).1 (.timerFires "a1" false)
      = ((gwStep .decline c2State (.clientRespond "s1"
          { approvalId := "a1", decision := some "accept" } false)).1, []) := by
  decide

/-- C2 (amended): for a pending entry, the deadline firing with the session
alive sends exactly one synthesized defaultAction Response and removes the
entry, and a matching client approval/respond with the session alive sends
exactly one Response carrying the client decision and removes the entry;
once the entry is gone (either way), both the timer and further client
responses are no-ops, so at most one Response is sent per pending approval.
(The original claim's "exactly one ... eventually" fails only on the
dead-session respond path of the counterexample.) -/
theorem C2_pending_approval_lifecycle (cfg : DefaultAction) (g : GatewayState)
    (aid sid : String) (pending : PendingApprovalE) (payload : RespondPayload) :
    (lookupA g.pendingApprovals aid = some pending → pending.timerActive = true →
      gwStep cfg g (.timerFires aid true)
        = ({ pendingApprovals := removeA g.pendingApprovals aid },
           [respondToApproval pending.requestId
             { decision := some (defaultActionStr cfg) }])
      ∧ lookupA (removeA g.pendingApprovals aid) aid = none) ∧
    (payload.approvalId = aid → lookupA g.pendingApprovals aid = some pending →
      pending.sessionId = sid →
      gwStep cfg g (.clientRespond sid payload true)
        = ({ pendingApprovals := removeA (updA g.pendingApprovals aid
              (fun p => { p with timerActive := false })) aid },
           [respondToApproval pending.requestId
             { decision := payload.decision
               acceptSettings := payload.acceptSettings }])
      ∧ lookupA (removeA (updA g.pendingApprovals aid
          (fun p => { p with timerActive := false })) aid) aid = none) ∧
    (lookupA g.pendingApprovals aid = none →
      (∀ alive, gwStep cfg g (.timerFires aid alive) = (g, [])) ∧
      (payload.approvalId = aid →
        ∀ alive, gwStep cfg g (.clientRespond sid payload alive) = (g, []))) := by
  refine ⟨?_, ?_, ?_⟩
  · intro hlk htim
    refine ⟨?_, lookupA_removeA_self _ _⟩
    rw [gwStep_timerFires, hlk]
    simp only [Option.elim]
    rw [if_pos htim, handleApprovalTimeout_some cfg g aid true pending hlk]
    rfl
  · intro hpid hlk hsid
    refine ⟨?_, lookupA_removeA_self _ _⟩
    subst hpid
    rw [gwStep_clientRespond,
      handleApprovalResponse_some g sid payload true pending hlk,
      if_neg (not_not_intro hsid)]
    rfl
  · intro hlk
    constructor
    · intro alive
      rw [gwStep_timerFires, hlk]
      rfl
    · intro hpid alive
      subst hpid
      rw [gwStep_clientRespond]
      exact handleApprovalResponse_none g sid payload alive hlk

/-- C2 witness: in the one-entry broker state, the timeout path with a live
session emits the synthesized decline and empties the table, and the client
respond path with a live session emits the client decision and empties the
table. -/
theorem C2_pending_approval_lifecycle_witness :
    gwStep .decline c2State (.timerFires "a1" true)
      = ({ pendingApprovals := [] },
         [respondToApproval "7" { decision := some "decline" }]) ∧
    gwStep .decline c2State (.clientRespond "s1"
        { approvalId := "a1", decision := some "accept" } true)
      = ({ pendingApprovals := [] },
         [respondToApproval "7" { decision := some "accept" }]) := by
  have h := C2_pending_approval_lifecycle .decline c2State "a1" "s1" c2Pending
    { approvalId := "a1", decision := some "accept" }
  constructor
  · exact ((h.1 (by decide) (by decide)).1).trans (by decide)
  · exact ((h.2.1 rfl (by decide) rfl).1).trans (by decide)

/-- C10: for a known approvalId with matching sessionId and live session,
the Response's `result.decision` and `result.acceptSettings` are exactly the
client-supplied values, for arbitrary strings or absent values — no
validation against accept/decline happens. -/
theorem C10_decision_forwarded_verbatim (g : GatewayState) (sid aid : String)
    (pending : PendingApprovalE) (dec acc : Option String)
    (hlk : lookupA g.pendingApprovals aid = some pending)
    (hsid : pending.sessionId = sid) :
    (handleApprovalResponse g sid
        { approvalId := aid, decision := dec, acceptSettings := acc } true).2
      = [{ id := pending.requestId
           result := { decision := dec, acceptSettings := acc } }] := by
  rw [handleApprovalResponse_some g sid
      { approvalId := aid, decision := dec, acceptSettings := acc } true pending hlk,
    if_neg (not_not_intro hsid)]
  rfl

/-- C10 witness: the one-entry broker forwards the invalid decision string
`maybe-later` with an arbitrary acceptSettings string, and also the fully
absent payload, unchanged. -/
theorem C10_decision_forwarded_verbatim_witness :
    (handleApprovalResponse c2State "s1"
        { approvalId := "a1"
          decision := some "maybe-later"
          acceptSettings := some "forSession" } true).2
      = [{ id := "7"
           result := { decision := some "maybe-later"
                       acceptSettings := some "forSession" } }] ∧
    (handleApprovalResponse c2State "s1" { approvalId := "a1" } true).2
      = [{ id := "7", result := {} }] := by
  constructor
  · exact C10_decision_forwarded_verbatim c2State "s1" "a1" c2Pending
      (some "maybe-later") (some "forSession") (by decide) rfl
  · exact C10_decision_forwarded_verbatim c2State "s1" "a1" c2Pending
      none none (by decide) rfl

/-- C8: `sendRequest` registers the fresh id with deadline `now + 60000`;
when the deadline fires while the entry is pending, the waiter is rejected
with `Request timeout: <method>` and the entry removed (afterwards no entry
for the id is pending); and a Response whose id has no pending entry — in
particular one arriving after the lapse — is discarded silently, changing no
state and resolving nothing. -/
theorem C8_request_deadline (s : SupRpcState) (now id : Nat) (method msg : String)
    (isError : Bool) :
    (sendRequest s now).1.pending
      = s.pending ++ [((sendRequest s now).2, now + 60000)] ∧
    (s.pending.any (fun p => p.1 == id) = true →
      fireRequestTimeout s id method
        = ({ s with pending := s.pending.filter (fun p => p.1 != id) },
           [.timeoutReject id ("Request timeout: " ++ method)]) ∧
      (s.pending.filter (fun p => p.1 != id)).any (fun p => p.1 == id) = false) ∧
    (s.pending.any (fun p => p.1 == id) = false →
      handleResponseMsg s id isError msg = (s, [])) := by
  refine ⟨rfl, ?_, ?_⟩
  · intro h
    refine ⟨?_, any_eq_filter_ne _ _⟩
    unfold fireRequestTimeout
    rw [if_pos h]
  · intro h
    unfold handleResponseMsg
    rw [if_neg (by rw [h]; exact Bool.false_ne_true)]

/-- C8 witness: in a table holding the single pending id 1, the deadline
firing rejects and empties the table, and a late response to the
then-empty table is dropped without effect. -/
theorem C8_request_deadline_witness :
    fireRequestTimeout { requestId := 1, pending := [(1, 60100)] } 1 "turn/start"
      = ({ requestId := 1, pending := [] },
         [.timeoutReject 1 "Request timeout: turn/start"]) ∧
    handleResponseMsg { requestId := 1, pending := [] } 1 false "ok"
      = ({ requestId := 1, pending := [] }, []) := by
  constructor
  · exact (((C8_request_deadline { requestId := 1, pending := [(1, 60100)] }
      100 1 "turn/start" "ok" false).2.1 (by decide)).1).trans (by decide)
  · exact (C8_request_deadline { requestId := 1, pending := [] }
      100 1 "turn/start" "ok" false).2.2 (by decide)

/-- C3: for a non-approval Request and for every Notification, the
supervisor's new mapper state is exactly `consume` applied to the
constructed RawEvent, and whenever `consume` returns an updated RunView the
run-update output carrying that RunView is among the emissions. -/
theorem C3_ir_tap (st : SupTapState) (ts : Nat) (id method : String)
    (params : Option Payload) (hm : isApprovalMethod method = false) :
    ((supervisorHandleMessage st ts (.request id method params)).1.mapper
        = (consume st.mapper (buildRawEvent st ts method params (some id))).1 ∧
      ∀ rv, (consume st.mapper (buildRawEvent st ts method params (some id))).2 = some rv →
        SupOutput.runUpdate rv ∈ (supervisorHandleMessage st ts (.request id method params)).2) ∧
    ((supervisorHandleMessage st ts (.notif method params)).1.mapper
        = (consume st.mapper (buildRawEvent st ts method params none)).1 ∧
      ∀ rv, (consume st.mapper (buildRawEvent st ts method params none)).2 = some rv →
        SupOutput.runUpdate rv ∈ (supervisorHandleMessage st ts (.notif method params)).2) := by
  have hreq : supervisorHandleMessage st ts (.request id method params)
      = tapConsume st ts method params (some id) := by
    show (if isApprovalMethod method then _ else _) = _
    rw [hm]
    rfl
  refine ⟨⟨?_, ?_⟩, ?_, ?_⟩
  · rw [hreq]
    rfl
  · intro rv h
    rw [hreq]
    show SupOutput.runUpdate rv ∈
      (match (consume st.mapper (buildRawEvent st ts method params (some id))).2 with
       | some rv => [SupOutput.runUpdate rv]
       | none => [])
    rw [h]
    exact List.Mem.head _
  · rfl
  · intro rv h
    show SupOutput.runUpdate rv ∈
      SupOutput.eventOut method params :: (tapConsume st ts method params none).2
    refine List.mem_cons_of_mem _ ?_
    show SupOutput.runUpdate rv ∈
      (match (consume st.mapper (buildRawEvent st ts method params none)).2 with
       | some rv => [SupOutput.runUpdate rv]
       | none => [])
    rw [h]
    exact List.Mem.head _

/-- C3 witness: a `thread/started` Request (not an approval method) from the
initial supervisor state leaves the mapper in exactly the state `consume`
yields on the constructed RawEvent. -/
theorem C3_ir_tap_witness :
    (supervisorHandleMessage {} 1 (SupMsg.request "5" "thread/started"
        (some { thread := some { id := some "thr1" } }))).1.mapper
      = (consume ({} : MapperState) (buildRawEvent {} 1 "thread/started"
          (some { thread := some { id := some "thr1" } }) (some "5"))).1 :=
  ((C3_ir_tap {} 1 "5" "thread/started"
    (some { thread := some { id := some "thr1" } }) (by decide)).1).1

end CloudCodex
